import Mathlib

/-!
Shallow embedding of the fetch-coordination core of the Scrape-U crawler
(src/scraper/…), together with theorems settling the specification claims.

Conventions of the embedding:
* Python floats (`time.time()` values, token counts, delays) are modelled as
  rationals `ℚ`; Python ints as `ℚ` where they mix with floats, else `ℕ`/`ℤ`.
* Asynchronous sleeping is modelled by returning the amount of time slept;
  wall-clock time `now` is an explicit argument.
* Digest functions (md5 / sha256 prefixes) are modelled as the identity on
  the hashed string: the code uses them only as (assumed collision-free)
  keys, so equality of digests is modelled as equality of the inputs.
-/

namespace ScrapeU

/-! ## Python string primitives, modelled over `List Char` (the library
`String` operations are compiled primitives that the kernel cannot
evaluate, so the embedding uses structural re-implementations). -/

/-- Python `str.split(sep)` for a one-character separator (no collapsing,
`"".split(sep) == [""]`). -/
def splitOnChar (sep : Char) : List Char → List (List Char)
  | [] => [[]]
  | c :: cs =>
    let r := splitOnChar sep cs
    if c == sep then [] :: r
    else
      match r with
      | [] => [[c]]
      | h :: t => (c :: h) :: t

/-- Python `str.split(sep)` on strings. -/
def pySplit (sep : Char) (s : String) : List String :=
  (splitOnChar sep s.data).map String.mk

/-- Python `sep.join(parts)` for a one-character separator. -/
def pyJoin (sep : Char) (parts : List String) : String :=
  String.mk (List.intercalate [sep] (parts.map String.data))

/-- Python `str.strip()` (ASCII whitespace). -/
def pyTrim (s : String) : String :=
  String.mk
    (((s.data.dropWhile Char.isWhitespace).reverse.dropWhile
        Char.isWhitespace).reverse)

/-- Python `str.lower()` (ASCII case folding). -/
def pyLower (s : String) : String := String.mk (s.data.map Char.toLower)

/-- `startswith` on character lists. -/
def startsWithL : List Char → List Char → Bool
  | _, [] => true
  | [], _ :: _ => false
  | c :: cs, p :: ps => c == p && startsWithL cs ps

/-- Python `str.startswith(pre)`. -/
def pyStartsWith (s pre : String) : Bool := startsWithL s.data pre.data

/-- Python `str.rstrip("/")`. -/
def rstripSlash (s : String) : String :=
  String.mk ((s.data.reverse.dropWhile (fun c => c == '/')).reverse)

/-! ## Token bucket (src/scraper/safety/rate_limiter.py, class TokenBucket) -/

/-- `TokenBucket` dataclass: `max_tokens`, `refill_rate` (tokens/second),
current `tokens` count, `last_refill` timestamp. -/
structure TokenBucket where
  max_tokens : ℚ
  refill_rate : ℚ
  tokens : ℚ
  last_refill : ℚ
  deriving Repr, DecidableEq

namespace TokenBucket

/-- `__post_init__`: the bucket starts full (`tokens = float(max_tokens)`). -/
def mk0 (max_tokens refill_rate now : ℚ) : TokenBucket :=
  { max_tokens := max_tokens
    refill_rate := refill_rate
    tokens := max_tokens
    last_refill := now }

/-- `TokenBucket.refill`: `tokens ← min(max_tokens, tokens + elapsed * refill_rate)`,
`last_refill ← now`. -/
def refill (b : TokenBucket) (now : ℚ) : TokenBucket :=
  { b with
    tokens := min b.max_tokens (b.tokens + (now - b.last_refill) * b.refill_rate)
    last_refill := now }

/-- `TokenBucket.consume(tokens=n)`: refill, then consume `n` tokens if
available.  Returns `(consumed?, new bucket)`. -/
def consume (b : TokenBucket) (now : ℚ) (n : ℚ := 1) : Bool × TokenBucket :=
  let b' := b.refill now
  if n ≤ b'.tokens then (true, { b' with tokens := b'.tokens - n })
  else (false, b')

/-- `TokenBucket.time_until_available(tokens=n)`: refill, then `0` if enough
tokens, else `(n - tokens) / refill_rate`.  Returns `(wait, new bucket)`. -/
def time_until_available (b : TokenBucket) (now : ℚ) (n : ℚ := 1) : ℚ × TokenBucket :=
  let b' := b.refill now
  if n ≤ b'.tokens then (0, b')
  else ((n - b'.tokens) / b.refill_rate, b')

end TokenBucket

/-! ## Per-domain limiter state (src/scraper/safety/rate_limiter.py) -/

/-- `DomainState` dataclass. -/
structure DomainState where
  bucket : TokenBucket
  last_request : ℚ := 0
  halted_until : ℚ := 0
  consecutive_errors : ℕ := 0
  strict_mode : Bool := false
  deriving Repr, DecidableEq

/-- Config defaults (src/scraper/config.py): `halt_on_403 = 60`. -/
def cfg_halt_on_403 : ℚ := 60
/-- Config default `halt_on_429 = 60`. -/
def cfg_halt_on_429 : ℚ := 60
/-- Config default `halt_on_captcha = 120`. -/
def cfg_halt_on_captcha : ℚ := 120

/-- `halt_domain`'s `duration_map.get(reason, 60)` with `duration=None`:
reason `"403"`/`"429"`/`"captcha"` map to the config defaults, anything else
to `60`. -/
def halt_duration_for (reason : String) : ℚ :=
  if reason = "403" then cfg_halt_on_403
  else if reason = "429" then cfg_halt_on_429
  else if reason = "captcha" then cfg_halt_on_captcha
  else 60

/-- `TokenBucketRateLimiter.halt_domain(url, duration, reason)` acting on one
domain's state at wall-clock `now`: sets `halted_until = now + duration`
(duration defaulted from the reason) and bumps `consecutive_errors`. -/
def halt_domain (st : DomainState) (now : ℚ) (duration : Option ℚ)
    (reason : String) : DomainState :=
  let d := duration.getD (halt_duration_for reason)
  { st with halted_until := now + d, consecutive_errors := st.consecutive_errors + 1 }

/-- The token-wait loop of `acquire`
(`while not state.bucket.consume(): sleep(time_until_available())`),
with explicit fuel; each iteration sleeps the returned wait and advances the
clock by the amount slept.  Returns `(total sleep, bucket, clock)`. -/
def token_loop : ℕ → TokenBucket → ℚ → ℚ × TokenBucket × ℚ
  | 0, b, t => (0, b, t)
  | fuel + 1, b, t =>
    let (ok, b1) := b.consume t
    if ok then (0, b1, t)
    else
      let (w, b2) := b1.time_until_available t
      let (s, b3, t') := token_loop fuel b2 (t + w)
      (w + s, b3, t')

/-- `TokenBucketRateLimiter.acquire(url)` acting on one domain's state.
`now` is the `time.time()` read at entry, `jitter` the value drawn by
`_get_delay`, `fuel` bounds the token loop.  Sleeps are modelled as exact.
Returns `(total time slept, final state)`.  Mirrors the source order:
halt wait, token loop, jitter spacing (computed against the *entry* `now`),
then `last_request ← time.time()`. -/
def acquire (st : DomainState) (now : ℚ) (jitter : ℚ) (fuel : ℕ) :
    ℚ × DomainState :=
  let halt_wait := if now < st.halted_until then st.halted_until - now else 0
  let t1 := now + halt_wait
  let (tok_sleep, b', t2) := token_loop fuel st.bucket t1
  let time_since_last := now - st.last_request
  let jitter_sleep := if time_since_last < jitter then jitter - time_since_last else 0
  let t3 := t2 + jitter_sleep
  (halt_wait + tok_sleep + jitter_sleep,
   { st with bucket := b', last_request := t3 })

/-! ## URL queue (src/scraper/queue_manager.py) and CPython `heapq` -/

/-- `QueueItem` dataclass (`order=True` with every field but `priority`
marked `compare=False`): comparison is on `priority` alone. -/
structure QueueItem where
  priority : ℕ
  url : String
  depth : ℕ := 0
  parent_url : Option String := none
  deriving Repr, DecidableEq, Inhabited

/-- The `<` used by `heapq` on `QueueItem`s: dataclass ordering compares
only the `priority` field. -/
def qlt (a b : QueueItem) : Bool := a.priority < b.priority

/-- Indexing of a Python list, with a default for out-of-range reads
(every read in `heapq` is in range). -/
def nth (l : List QueueItem) (i : ℕ) : QueueItem := l.getD i default

/-- The loop of CPython `heapq._siftdown(heap, startpos, pos)` with
`newitem = heap[pos]` already read out: walk parents down while
`newitem < parent`, finally write `newitem`.  The loop runs at most `pos`
times (the position strictly decreases), so it is given `pos` as
structural fuel; the fuel-exhausted fallback performs the loop-exit write
and is never reached from the wrapper below. -/
def siftdownGo : ℕ → List QueueItem → ℕ → ℕ → QueueItem → List QueueItem
  | 0, heap, _, pos, newitem => heap.set pos newitem
  | fuel + 1, heap, startpos, pos, newitem =>
    if startpos < pos then
      let parentpos := (pos - 1) / 2
      let parent := nth heap parentpos
      if qlt newitem parent then
        siftdownGo fuel (heap.set pos parent) startpos parentpos newitem
      else heap.set pos newitem
    else heap.set pos newitem

/-- CPython `heapq._siftdown` body after reading `newitem`. -/
def siftdownAux (heap : List QueueItem) (startpos pos : ℕ)
    (newitem : QueueItem) : List QueueItem :=
  siftdownGo pos heap startpos pos newitem

/-- CPython `heapq._siftdown`. -/
def siftdown (heap : List QueueItem) (startpos pos : ℕ) : List QueueItem :=
  siftdownAux heap startpos pos (nth heap pos)

/-- The loop of CPython `heapq._siftup`: bubble the smaller child up until
hitting a leaf, then place `newitem` in the leaf and sift it down.  The
loop runs at most `endpos - pos` times (the position strictly increases
below `endpos`), so it is given that as structural fuel; the
fuel-exhausted fallback performs the loop-exit action and is never reached
from the wrapper below. -/
def siftupGo : ℕ → List QueueItem → ℕ → ℕ → QueueItem → ℕ → List QueueItem
  | 0, heap, startpos, pos, newitem, _ =>
    siftdownAux (heap.set pos newitem) startpos pos newitem
  | fuel + 1, heap, startpos, pos, newitem, endpos =>
    let childpos := 2 * pos + 1
    if childpos < endpos then
      let rightpos := childpos + 1
      let childpos :=
        if rightpos < endpos ∧ ¬ qlt (nth heap childpos) (nth heap rightpos)
        then rightpos else childpos
      siftupGo fuel (heap.set pos (nth heap childpos)) startpos childpos
        newitem endpos
    else
      siftdownAux (heap.set pos newitem) startpos pos newitem

/-- The `_siftup` loop from position `pos`. -/
def siftupLoop (heap : List QueueItem) (startpos pos : ℕ)
    (newitem : QueueItem) (endpos : ℕ) : List QueueItem :=
  siftupGo (endpos - pos) heap startpos pos newitem endpos

/-- CPython `heapq._siftup(heap, pos)`. -/
def siftup (heap : List QueueItem) (pos : ℕ) : List QueueItem :=
  siftupLoop heap pos pos (nth heap pos) heap.length

/-- CPython `heapq.heappush`. -/
def heappush (heap : List QueueItem) (item : QueueItem) : List QueueItem :=
  siftdown (heap ++ [item]) 0 heap.length

/-- CPython `heapq.heappop`: pop the last element; if the heap is still
non-empty, move it to the root and sift up, returning the old root. -/
def heappop (heap : List QueueItem) : Option (QueueItem × List QueueItem) :=
  match heap with
  | [] => none
  | x :: xs =>
    let lastelt := (x :: xs).getLast (List.cons_ne_nil x xs)
    let rest := (x :: xs).dropLast
    if rest.isEmpty then some (lastelt, [])
    else some (nth rest 0, siftup (rest.set 0 lastelt) 0)

/-- The binary min-heap property (with respect to the priority-only
comparison `qlt`) that `heapq` maintains on the backing list. -/
def HeapInv (l : List QueueItem) : Prop :=
  ∀ i j : ℕ, (j = 2 * i + 1 ∨ j = 2 * i + 2) → j < l.length →
    (nth l i).priority ≤ (nth l j).priority

/-- `URLQueue` state: the heap list, the `seen` fingerprint set, the size
bound, the robots-filter switch, and the stats counters.  The robots
decision (`self._robots.can_fetch`) is the dependency `robots`. -/
structure URLQueue where
  queue : List QueueItem := []
  seen : List String := []
  max_size : ℕ := 10000
  filter_robots : Bool := true
  robots : String → Bool := fun _ => true
  added : ℕ := 0
  processed : ℕ := 0
  filtered : ℕ := 0
  duplicates : ℕ := 0

/-- `URLQueue._url_hash`: md5 of the normalized URL
(`url.rstrip("/").lower()`); the md5 hex digest is modelled as the
normalized string itself (md5 used as a collision-free key). -/
def url_hash (url : String) : String := pyLower (rstripSlash url)

/-- `URLQueue.add(url, priority, depth, parent_url, …)`: duplicate check,
capacity check, robots check, then `heappush` + mark seen.  Returns
`(accepted?, new state)`. -/
def URLQueue.add (q : URLQueue) (url : String) (priority : ℕ := 2)
    (depth : ℕ := 0) (parent_url : Option String := none) :
    Bool × URLQueue :=
  let h := url_hash url
  if h ∈ q.seen then
    (false, { q with duplicates := q.duplicates + 1 })
  else if q.max_size ≤ q.queue.length then
    (false, q)
  else if q.filter_robots && !q.robots url then
    (false, { q with filtered := q.filtered + 1 })
  else
    let item : QueueItem :=
      { priority := priority, url := url, depth := depth, parent_url := parent_url }
    (true, { q with
      queue := heappush q.queue item
      seen := h :: q.seen
      added := q.added + 1 })

/-- `URLQueue.get`: pop the heap if non-empty (the timeout only governs how
long the empty case polls), bumping `_processed`. -/
def URLQueue.get (q : URLQueue) : Option QueueItem × URLQueue :=
  match heappop q.queue with
  | none => (none, q)
  | some (item, rest) =>
    (some item, { q with queue := rest, processed := q.processed + 1 })

/-- `URLQueue.get_stats()` — note the absence of any over-capacity counter. -/
structure QueueStats where
  current_size : ℕ
  max_size : ℕ
  total_added : ℕ
  total_processed : ℕ
  filtered_robots : ℕ
  duplicates_skipped : ℕ
  seen_count : ℕ
  deriving Repr, DecidableEq

/-- `URLQueue.get_stats()`. -/
def URLQueue.get_stats (q : URLQueue) : QueueStats :=
  { current_size := q.queue.length
    max_size := q.max_size
    total_added := q.added
    total_processed := q.processed
    filtered_robots := q.filtered
    duplicates_skipped := q.duplicates
    seen_count := q.seen.length }

/-- Queue operations for reachability: an `add` with the item's parameters,
or a `get`. -/
inductive QOp where
  | add (url : String) (priority : ℕ)
  | get
  deriving Repr

/-- Run a sequence of queue operations from a starting state. -/
def runQueue (q : URLQueue) : List QOp → URLQueue
  | [] => q
  | QOp.add url prio :: ops => runQueue (q.add url prio).2 ops
  | QOp.get :: ops => runQueue (q.get).2 ops

/-! ## Robots cache (src/scraper/safety/robots_parser.py) and CPython
`urllib.robotparser.RobotFileParser` -/

/-- Outcome of the `httpx` GET in `RobotsParser._fetch_robots_txt`: a
response with a status and body, or an `httpx.RequestError`. -/
inductive RobotsFetchOutcome where
  | response (status : ℕ) (body : String)
  | requestError (msg : String)
  deriving Repr, DecidableEq

/-- `RobotsParser._fetch_robots_txt`: 200 → body; 404/403 → `""` (assume
everything allowed); any other status or a transport error → a synthetic
deny-all body. -/
def fetch_robots_txt (o : RobotsFetchOutcome) : String :=
  match o with
  | .response status body =>
    if status = 200 then body
    else if status = 404 ∨ status = 403 then ""
    else "User-agent: *\nDisallow: /"
  | .requestError _ => "User-agent: *\nDisallow: /"

/-- Substring test (`in` on Python strings). -/
def strContains (s pat : String) : Bool := decide (pat.data <:+: s.data)

/-- CPython `robotparser.RuleLine`: a path and an allowance.  The
percent-quoting / URL round-trip in the constructor is the identity on the
plain ASCII paths involved and is modelled as such. -/
structure RuleLine where
  path : String
  allowance : Bool
  deriving Repr, DecidableEq

/-- `RuleLine.__init__`: an empty `Disallow:` value means allow all. -/
def RuleLine.mk0 (path : String) (allowance : Bool) : RuleLine :=
  if path = "" ∧ allowance = false then ⟨path, true⟩ else ⟨path, allowance⟩

/-- `RuleLine.applies_to(filename)`. -/
def RuleLine.applies_to (r : RuleLine) (filename : String) : Bool :=
  r.path = "*" || pyStartsWith filename r.path

/-- CPython `robotparser.Entry`: a user-agent group. -/
structure RobotsEntry where
  useragents : List String := []
  rulelines : List RuleLine := []
  deriving Repr, DecidableEq

/-- `Entry.applies_to(useragent)`. -/
def RobotsEntry.applies_to (e : RobotsEntry) (useragent : String) : Bool :=
  let ua := pyLower ((pySplit '/' useragent).headD "")
  e.useragents.any fun agent => agent = "*" || strContains ua (pyLower agent)

/-- `Entry.allowance(filename)`: the first matching rule line decides;
no match means allowed. -/
def RobotsEntry.allowance (e : RobotsEntry) (filename : String) : Bool :=
  match e.rulelines.find? (fun l => l.applies_to filename) with
  | some l => l.allowance
  | none => true

/-- CPython `RobotFileParser` state (the fields `can_fetch` consults).
`last_checked` is modelled as the flag "`modified()` has been called". -/
structure RobotFileParser where
  entries : List RobotsEntry := []
  default_entry : Option RobotsEntry := none
  disallow_all : Bool := false
  allow_all : Bool := false
  last_checked : Bool := false
  deriving Repr, DecidableEq

/-- `RobotFileParser._add_entry`. -/
def RobotFileParser.add_entry (p : RobotFileParser) (e : RobotsEntry) :
    RobotFileParser :=
  if "*" ∈ e.useragents then
    if p.default_entry = none then { p with default_entry := some e } else p
  else { p with entries := p.entries ++ [e] }

/-- One iteration of the `RobotFileParser.parse` line loop: `state` is 0
(start), 1 (saw user-agent) or 2 (saw an allow/disallow); `entry` the group
being accumulated.  Percent-unquoting of values is the identity on the
inputs involved and modelled as such. -/
def robotsParseLine (acc : ℕ × RobotsEntry × RobotFileParser) (line : String) :
    ℕ × RobotsEntry × RobotFileParser :=
  let (state, entry, p) := acc
  let (state, entry, p) :=
    if line = "" then
      if state = 1 then (0, ({} : RobotsEntry), p)
      else if state = 2 then (0, ({} : RobotsEntry), p.add_entry entry)
      else (state, entry, p)
    else (state, entry, p)
  let line := pyTrim ((pySplit '#' line).headD line)
  if line = "" then (state, entry, p)
  else
    match pySplit ':' line with
    | [] => (state, entry, p)
    | [_] => (state, entry, p)
    | key :: rest =>
      let key := pyLower (pyTrim key)
      let val := pyTrim (pyJoin ':' rest)
      if key = "user-agent" then
        let (entry, p) :=
          if state = 2 then (({} : RobotsEntry), p.add_entry entry) else (entry, p)
        (1, { entry with useragents := entry.useragents ++ [val] }, p)
      else if key = "disallow" then
        if state ≠ 0 then
          (2, { entry with rulelines := entry.rulelines ++ [RuleLine.mk0 val false] }, p)
        else (state, entry, p)
      else if key = "allow" then
        if state ≠ 0 then
          (2, { entry with rulelines := entry.rulelines ++ [RuleLine.mk0 val true] }, p)
        else (state, entry, p)
      else (state, entry, p)

/-- `RobotFileParser.parse(lines)`: run the state machine over the lines
(with `modified()` setting `last_checked`), flushing a trailing group. -/
def RobotFileParser.parse (lines : List String) : RobotFileParser :=
  let p0 : RobotFileParser := { last_checked := true }
  let (state, entry, p) := lines.foldl robotsParseLine (0, ({} : RobotsEntry), p0)
  if state = 2 then p.add_entry entry else p

/-- `RobotFileParser.can_fetch(useragent, url)`, taking the already
extracted-and-quoted path component of the URL (`""` normalizes to `"/"`). -/
def RobotFileParser.can_fetch (p : RobotFileParser) (useragent path : String) :
    Bool :=
  if p.disallow_all then false
  else if p.allow_all then true
  else if !p.last_checked then false
  else
    let url := if path = "" then "/" else path
    match p.entries.find? (fun e => e.applies_to useragent) with
    | some e => e.allowance url
    | none =>
      match p.default_entry with
      | some e => e.allowance url
      | none => true

/-- The ruleset the `RobotsCache` stores for a fetch outcome on a cache
miss: `_fetch_robots_txt` then `parser.parse(content.split("\n"))`. -/
def robotsRulesetFor (o : RobotsFetchOutcome) : RobotFileParser :=
  RobotFileParser.parse (pySplit '\n' (fetch_robots_txt o))

/-! ## Fetch results (src/scraper/fetchers/http_fetcher.py) -/

/-- `FetchResult` dataclass.  `is_browser` records the runtime type of the
result (`BrowserResult` carries a `final_url` attribute, which is what
`hasattr(result, "final_url")` tests in the orchestrator). -/
structure FetchResult where
  url : String
  status_code : ℕ
  content : String := ""
  error : Option String := none
  response_time : ℚ := 0
  used_proxy : Option String := none
  is_browser : Bool := false
  deriving Repr, DecidableEq

/-- `FetchResult.success`: `200 <= status_code < 300 and error is None`. -/
def FetchResult.success (r : FetchResult) : Bool :=
  decide (200 ≤ r.status_code) && decide (r.status_code < 300) && r.error.isNone

/-- `FetchResult.is_blocked`: `status_code in (403, 429)`. -/
def FetchResult.is_blocked (r : FetchResult) : Bool :=
  r.status_code = 403 || r.status_code = 429

/-! ## Proxy pool health tracking (src/scraper/stealth/proxy_pool.py) -/

/-- Config default `proxy.max_failures = 3`. -/
def cfg_proxy_max_failures : ℕ := 3

/-- `Proxy` dataclass (health-tracking fields). -/
structure Proxy where
  url : String
  is_healthy : Bool := true
  failure_count : ℕ := 0
  avg_response_time : ℚ := 0
  total_requests : ℕ := 0
  successful_requests : ℕ := 0
  deriving Repr, DecidableEq

/-- `Proxy.mark_failure`: bump the failure counter; at the threshold the
proxy becomes unhealthy. -/
def Proxy.mark_failure (p : Proxy) : Proxy :=
  let fc := p.failure_count + 1
  { p with
    failure_count := fc
    is_healthy := if cfg_proxy_max_failures ≤ fc then false else p.is_healthy }

/-- `Proxy.mark_success(response_time)`: reset failures, mark healthy, bump
request counters, EWMA (0.8/0.2) of the response time. -/
def Proxy.mark_success (p : Proxy) (response_time : ℚ) : Proxy :=
  { p with
    failure_count := 0
    is_healthy := true
    total_requests := p.total_requests + 1
    successful_requests := p.successful_requests + 1
    avg_response_time :=
      if p.avg_response_time = 0 then response_time
      else p.avg_response_time * (8 / 10) + response_time * (2 / 10) }

/-! ## The static fetch and its proxy reporting
(src/scraper/fetchers/http_fetcher.py, HTTPFetcher.fetch) -/

/-- Outcome of the `httpx` GET inside `HTTPFetcher.fetch`: a response, an
`httpx.TimeoutException`, or another `httpx.RequestError`. -/
inductive HttpOutcome where
  | ok (status : ℕ) (body : String)
  | timeout
  | requestError (msg : String)
  deriving Repr, DecidableEq

/-- `HTTPFetcher.fetch` for a request that used proxy `proxy` and took
`response_time`: builds the `FetchResult` and reports the outcome to the
proxy pool exactly as the source does (success on 2xx, failure on
403/429 or `RequestError`; the `TimeoutException` branch returns without
reporting).  Returns `(result, proxy after reporting)`. -/
def http_fetch (url : String) (o : HttpOutcome) (proxy : Option Proxy)
    (response_time : ℚ) : FetchResult × Option Proxy :=
  match o with
  | .ok status body =>
    let result : FetchResult :=
      { url := url, status_code := status, content := body
        response_time := response_time
        used_proxy := proxy.map Proxy.url }
    let proxy' :=
      match proxy with
      | none => none
      | some p =>
        if result.success then some (p.mark_success response_time)
        else if result.is_blocked then some p.mark_failure
        else some p
    (result, proxy')
  | .timeout =>
    ({ url := url, status_code := 0, error := some "Request timed out"
       response_time := response_time, used_proxy := proxy.map Proxy.url },
     proxy)
  | .requestError msg =>
    ({ url := url, status_code := 0, error := some msg
       response_time := response_time, used_proxy := proxy.map Proxy.url },
     proxy.map Proxy.mark_failure)

/-! ## The dispatcher (src/scraper/orchestrator.py, Orchestrator._fetch_url) -/

/-- `ScraperStats` dataclass (counter fields). -/
structure ScraperStats where
  urls_processed : ℕ := 0
  urls_successful : ℕ := 0
  urls_failed : ℕ := 0
  bytes_downloaded : ℕ := 0
  browser_fetches : ℕ := 0
  http_fetches : ℕ := 0
  deriving Repr, DecidableEq

/-- `Orchestrator._fetch_url(url)`: static fetch result `static`; on static
success consult `quick_check` and possibly return the `browser` result; on a
403/429 static failure halt the URL's domain and return the `browser`
result; otherwise return the static result.  `st`/`now` are the domain's
limiter state and the wall clock at the halt.  Returns
`(returned result, stats, limiter state)`. -/
def fetch_url (static browser : FetchResult)
    (quick_check : FetchResult → Bool) (st : DomainState) (now : ℚ)
    (stats : ScraperStats) : FetchResult × ScraperStats × DomainState :=
  if static.success then
    if quick_check static then
      (browser, { stats with browser_fetches := stats.browser_fetches + 1 }, st)
    else
      (static, { stats with http_fetches := stats.http_fetches + 1 }, st)
  else if static.status_code = 403 ∨ static.status_code = 429 then
    let st' := halt_domain st now none (toString static.status_code)
    (browser, { stats with browser_fetches := stats.browser_fetches + 1 }, st')
  else
    (static, { stats with http_fetches := stats.http_fetches + 1 }, st)

/-! ## Worker-loop counter accounting (src/scraper/orchestrator.py,
Orchestrator._worker / _process_url), with the per-URL exception paths of
`_process_url`'s `try`/`except` represented -/

/-- `Orchestrator._fetch_url` with the exception path of `_init_browser`
represented: in both escalation branches the source awaits
`self._init_browser()` *before* bumping `browser_fetches`, and
`BrowserFetcher.start()` raises `ImportError` when playwright is missing
(and may raise on launch failure).  `browser?` is `some result` when the
browser came up and its fetch returned `result`, and `none` when
`_init_browser` raised (`errmsg` is `str` of the exception, which
propagates out of `_fetch_url`).  The 403/429 halt is applied before the
browser init, so it survives the raise. -/
def fetch_url_e (static : FetchResult) (browser? : Option FetchResult)
    (quick_check : FetchResult → Bool) (st : DomainState) (now : ℚ)
    (stats : ScraperStats) (errmsg : String) :
    Except String FetchResult × ScraperStats × DomainState :=
  if static.success then
    if quick_check static then
      match browser? with
      | none => (.error errmsg, stats, st)
      | some browser =>
        (.ok browser,
         { stats with browser_fetches := stats.browser_fetches + 1 }, st)
    else
      (.ok static, { stats with http_fetches := stats.http_fetches + 1 }, st)
  else if static.status_code = 403 ∨ static.status_code = 429 then
    let st' := halt_domain st now none (toString static.status_code)
    match browser? with
    | none => (.error errmsg, stats, st')
    | some browser =>
      (.ok browser,
       { stats with browser_fetches := stats.browser_fetches + 1 }, st')
  else
    (.ok static, { stats with http_fetches := stats.http_fetches + 1 }, st)

/-- What happens to one dequeued URL in `_worker`:
* `cachedHit` — `storage.exists` answered true and the cached branch of
  `_process_url` completed (no network fetch);
* `preFetchError msg` — a step before the dispatch (`limiter.acquire`,
  `storage.exists`, `storage.load`) raised, so the outer `except` produced
  a failure result without any fetch counter being reached;
* `dispatch` — `_fetch_url` ran with the given static result; `browser?`
  is the browser availability/result as in `fetch_url_e`, and `saveE` /
  `reportE` are the outcomes of `storage.save` and
  `limiter.report_success` after a successful fetch (parser exceptions
  are swallowed by `_process_url` and never reach the stats). -/
inductive UrlOutcome where
  | cachedHit
  | preFetchError (msg : String)
  | dispatch (static : FetchResult) (browser? : Option FetchResult)
      (now : ℚ) (errmsg : String) (saveE reportE : Except String Unit)

/-- The `cached_hits` of a run: URLs answered from the raw store. -/
def cachedHits (events : List UrlOutcome) : ℕ :=
  events.countP fun e => match e with | .cachedHit => true | _ => false

/-- Whether a dispatched URL's pipeline aborted inside `_fetch_url` before
either fetch counter was bumped: the escalation branch was taken (static
success with `quick_check` positive, or a 403/429 static failure) and
`_init_browser` raised. -/
def dispatchAborted (quick_check : FetchResult → Bool)
    (static : FetchResult) (browser? : Option FetchResult) : Bool :=
  browser?.isNone
    && ((static.success && quick_check static)
        || (!static.success
            && (static.status_code == 403 || static.status_code == 429)))

/-- The URLs of a run whose processing raised before either fetch counter
was incremented (a pre-dispatch raise, or an escalation with the browser
init raising). -/
def abortedHits (quick_check : FetchResult → Bool)
    (events : List UrlOutcome) : ℕ :=
  events.countP fun e =>
    match e with
    | .cachedHit => false
    | .preFetchError _ => true
    | .dispatch static browser? _ _ _ _ =>
      dispatchAborted quick_check static browser?

/-- One `_worker` iteration over stats and the domain's limiter state.
The cached branch of `_process_url` returns a success without touching the
fetch counters; a pre-dispatch raise is caught by the outer `except` into
a failure result; the dispatch branch runs `_fetch_url` (whose raise is
likewise caught into a failure result), then on a successful fetch saves
(`saveE`; on success `bytes_downloaded` grows by `len(content)`), swallows
parser errors, and reports success (`reportE`); a raise from save or
report again becomes a failure result.  `_worker` then bumps
processed / successful / failed from the result. -/
def worker_step (quick_check : FetchResult → Bool)
    (acc : ScraperStats × DomainState) (e : UrlOutcome) :
    ScraperStats × DomainState :=
  match e with
  | .cachedHit =>
    ({ acc.1 with
       urls_processed := acc.1.urls_processed + 1
       urls_successful := acc.1.urls_successful + 1 }, acc.2)
  | .preFetchError _ =>
    ({ acc.1 with
       urls_processed := acc.1.urls_processed + 1
       urls_failed := acc.1.urls_failed + 1 }, acc.2)
  | .dispatch static browser? now errmsg saveE reportE =>
    let (res, stats1, st') :=
      fetch_url_e static browser? quick_check acc.2 now acc.1 errmsg
    match res with
    | .error _ =>
      ({ stats1 with
         urls_processed := stats1.urls_processed + 1
         urls_failed := stats1.urls_failed + 1 }, st')
    | .ok r =>
      if r.success then
        match saveE with
        | .error _ =>
          ({ stats1 with
             urls_processed := stats1.urls_processed + 1
             urls_failed := stats1.urls_failed + 1 }, st')
        | .ok _ =>
          let stats2 := { stats1 with
            bytes_downloaded := stats1.bytes_downloaded + r.content.length }
          match reportE with
          | .error _ =>
            ({ stats2 with
               urls_processed := stats2.urls_processed + 1
               urls_failed := stats2.urls_failed + 1 }, st')
          | .ok _ =>
            ({ stats2 with
               urls_processed := stats2.urls_processed + 1
               urls_successful := stats2.urls_successful + 1 }, st')
      else
        ({ stats1 with
           urls_processed := stats1.urls_processed + 1
           urls_failed := stats1.urls_failed + 1 }, st')

/-- A run over a list of URL outcomes, starting (as `run` does) from fresh
zeroed stats. -/
def run_worker (quick_check : FetchResult → Bool) (st0 : DomainState)
    (events : List UrlOutcome) : ScraperStats × DomainState :=
  events.foldl (worker_step quick_check) ({}, st0)

/-! ## Raw storage (src/scraper/pipeline/raw_storage.py) -/

/-- `StoredContent` dataclass. -/
structure StoredContent where
  url : String
  url_hash : String
  filename : String
  content_type : String
  stored_at : ℚ
  size_bytes : ℕ
  status_code : ℕ
  deriving Repr, DecidableEq

/-- `RawStorage._url_hash`: `sha256(url)[:16]`, modelled as the URL itself
(the digest is used only as a collision-free filesystem key). -/
def storage_url_hash (url : String) : String := url

/-- `RawStorage._get_filepath`. -/
def get_filepath (url content_type : String) : String :=
  storage_url_hash url ++ "." ++ (if content_type = "json" then "json" else "html")

/-- On-disk state of the raw store: the content files (path ↦ content), the
in-memory metadata index and the persisted `metadata.json`
(hash ↦ record). -/
structure RawStorage where
  files : String → Option String
  metadata : String → Option StoredContent
  metadata_file : String → Option StoredContent

/-- `RawStorage.save(url, content, content_type, status_code)` at wall-clock
`now`: write the content file, update the in-memory index, persist the
index. -/
def RawStorage.save (s : RawStorage) (url content : String) (now : ℚ)
    (content_type : String := "html") (status_code : ℕ := 200) : RawStorage :=
  let filepath := get_filepath url content_type
  let h := storage_url_hash url
  let stored : StoredContent :=
    { url := url, url_hash := h, filename := filepath
      content_type := content_type, stored_at := now
      size_bytes := content.utf8ByteSize, status_code := status_code }
  let files' := fun k => if k = filepath then some content else s.files k
  let md' := fun k => if k = h then some stored else s.metadata k
  { files := files', metadata := md', metadata_file := md' }

/-! ## The per-URL pipeline (src/scraper/orchestrator.py,
Orchestrator._process_url) -/

/-- `ScrapeResult` dataclass; `data` is the extractor's dict as an
association list. -/
structure ScrapeResult where
  url : String
  success : Bool
  status_code : ℕ := 0
  content : String := ""
  data : List (String × String) := []
  error : Option String := none
  response_time : ℚ := 0
  used_browser : Bool := false
  deriving Repr, DecidableEq

/-- The behaviours of the components `_process_url` calls, each either
returning or raising (`Except.error msg` models a raised exception whose
`str` is `msg`).  `parse` is the combined parser-plus-cleaner call when a
parser was supplied. -/
structure ProcEnv where
  acquireE : Except String Unit
  existsE : Except String Bool
  loadE : Except String (Option String)
  fetchE : Except String FetchResult
  saveE : Except String Unit
  reportE : Except String Unit
  parse : Option (Except String (List (String × String)))

/-- The failure result produced by `_process_url`'s outer `except` clause. -/
def errResult (url msg : String) : ScrapeResult :=
  { url := url, success := false, error := some msg }

/-- `Orchestrator._process_url(url)`: acquire the limiter, answer from the
store when cached, else dispatch, save, parse (parser errors swallowed to
an empty dict), report success; any exception from the non-parser steps is
caught and converted into a failure `ScrapeResult`. -/
def process_url (url : String) (env : ProcEnv) : ScrapeResult :=
  match env.acquireE with
  | .error e => errResult url e
  | .ok _ =>
    match env.existsE with
    | .error e => errResult url e
    | .ok true =>
      match env.loadE with
      | .error e => errResult url e
      | .ok content =>
        let data :=
          match env.parse, content with
          | some (Except.ok d), some c => if c = "" then [] else d
          | _, _ => []
        { url := url, success := true, content := content.getD "", data := data }
    | .ok false =>
      match env.fetchE with
      | .error e => errResult url e
      | .ok result =>
        if !result.success then
          { url := url, success := false, status_code := result.status_code
            error := result.error, response_time := result.response_time }
        else
          match env.saveE with
          | .error e => errResult url e
          | .ok _ =>
            let data :=
              match env.parse with
              | some (Except.ok d) => d
              | _ => []
            match env.reportE with
            | .error e => errResult url e
            | .ok _ =>
              { url := url, success := true, status_code := result.status_code
                content := result.content, data := data
                response_time := result.response_time
                used_browser := result.is_browser }

/-! ## Theorems -/

/-- C2: for a token bucket with capacity `C` and rate `R` (well-formed
state, time monotone): the refill formula is `min (C, prev + Δt·R)`; the
token count stays in `[0, C]` after refill and consume; `consume 1`
succeeds, decrementing by one, exactly when the refilled count is ≥ 1 and
otherwise leaves the (refilled) count unchanged; and when the refilled
count is below `n`, `time_until_available n` returns
`(n − tokens)/R`. -/
theorem C2_token_bucket (b : TokenBucket) (now n : ℚ)
    (hC : 0 ≤ b.max_tokens) (hR : 0 ≤ b.refill_rate)
    (ht : b.last_refill ≤ now) (hlo : 0 ≤ b.tokens)
    (hhi : b.tokens ≤ b.max_tokens) :
    (b.refill now).tokens
        = min b.max_tokens (b.tokens + (now - b.last_refill) * b.refill_rate)
    ∧ (0 ≤ (b.refill now).tokens ∧ (b.refill now).tokens ≤ b.max_tokens)
    ∧ ((b.consume now 1).1 = true ↔ 1 ≤ (b.refill now).tokens)
    ∧ ((b.consume now 1).1 = true →
        (b.consume now 1).2.tokens = (b.refill now).tokens - 1)
    ∧ ((b.consume now 1).1 = false →
        (b.consume now 1).2.tokens = (b.refill now).tokens)
    ∧ (0 ≤ (b.consume now 1).2.tokens
        ∧ (b.consume now 1).2.tokens ≤ b.max_tokens)
    ∧ ((b.refill now).tokens < n →
        (b.time_until_available now n).1 = (n - (b.refill now).tokens) / b.refill_rate) := by
  have helapsed : 0 ≤ (now - b.last_refill) * b.refill_rate :=
    mul_nonneg (by linarith) hR
  have hlo' : 0 ≤ (b.refill now).tokens := by
    simp only [TokenBucket.refill, le_min_iff]
    constructor
    · exact hC
    · linarith
  have hhi' : (b.refill now).tokens ≤ b.max_tokens := by
    simp only [TokenBucket.refill]
    exact min_le_left _ _
  refine ⟨rfl, ⟨hlo', hhi'⟩, ?_, ?_, ?_, ?_, ?_⟩
  · by_cases hc : 1 ≤ (b.refill now).tokens <;> simp [TokenBucket.consume, hc]
  · intro h
    by_cases hc : 1 ≤ (b.refill now).tokens
    · simp [TokenBucket.consume, hc]
    · simp [TokenBucket.consume, hc] at h
  · intro h
    by_cases hc : 1 ≤ (b.refill now).tokens
    · simp [TokenBucket.consume, hc] at h
    · simp [TokenBucket.consume, hc]
  · by_cases hc : 1 ≤ (b.refill now).tokens
    · simp only [TokenBucket.consume, hc, if_pos]
      constructor
      · linarith
      · linarith [hhi']
    · simpa [TokenBucket.consume, hc] using ⟨hlo', hhi'⟩
  · intro h
    have hc : ¬ n ≤ (b.refill now).tokens := by linarith
    simp [TokenBucket.time_until_available, hc]

/-- C2 witness: `TokenBucket(C=5, R=1)` drained to zero tokens — the next
`consume` fails and `time_until_available(1)` is exactly one second. -/
theorem C2_token_bucket_witness :
    ((⟨5, 1, 0, 100⟩ : TokenBucket).consume 100 1).1 = false
    ∧ ((⟨5, 1, 0, 100⟩ : TokenBucket).time_until_available 100 1).1 = 1 := by
  have h := C2_token_bucket ⟨5, 1, 0, 100⟩ 100 1 (by norm_num) (by norm_num)
    (by norm_num) (by norm_num) (by norm_num)
  have href : ((⟨5, 1, 0, 100⟩ : TokenBucket).refill 100).tokens = 0 := by
    norm_num [TokenBucket.refill]
  constructor
  · cases hc : ((⟨5, 1, 0, 100⟩ : TokenBucket).consume 100 1).1
    · rfl
    · have := h.2.2.1.mp hc
      rw [href] at this
      norm_num at this
  · have := h.2.2.2.2.2.2 (by rw [href]; norm_num)
    rw [href] at this
    simpa using this

/-- The token-wait loop never sleeps a negative amount (positive refill
rate). -/
theorem token_loop_sleep_nonneg (fuel : ℕ) (b : TokenBucket) (t : ℚ)
    (hR : 0 < b.refill_rate) : 0 ≤ (token_loop fuel b t).1 := by
  induction fuel generalizing b t with
  | zero => simp [token_loop]
  | succ n ih =>
    simp only [token_loop]
    set b1 := (b.consume t).2 with hb1
    by_cases hok : (b.consume t).1
    · simp [hok]
    · have hrate1 : b1.refill_rate = b.refill_rate := by
        simp only [hb1, TokenBucket.consume, TokenBucket.refill]
        split <;> rfl
      have hw : 0 ≤ (b1.time_until_available t).1 := by
        by_cases htk : 1 ≤ (b1.refill t).tokens
        · simp [TokenBucket.time_until_available, htk]
        · simp only [TokenBucket.time_until_available, htk, if_neg, not_false_iff]
          refine div_nonneg (by linarith [not_le.mp htk]) ?_
          rw [hrate1]
          exact le_of_lt hR
      have hrate2 : (b1.time_until_available t).2.refill_rate = b.refill_rate := by
        simp only [TokenBucket.time_until_available, TokenBucket.refill]
        split <;> simp [hrate1]
      have hs := ih (b1.time_until_available t).2 (t + (b1.time_until_available t).1)
        (by rw [hrate2]; exact hR)
      simp only [hok, Bool.false_eq_true, if_false]
      have hexp :
          (token_loop (n + 1) b t).1
            = (b1.time_until_available t).1
              + (token_loop n (b1.time_until_available t).2
                  (t + (b1.time_until_available t).1)).1 := by
        simp [token_loop, hok]
      linarith [hs, hw]

/-- C4: while a domain is halted, `acquire` sleeps at least
`halted_until − now` before allowing the request; and `halt_domain` sets
`halted_until` to the call time plus the reason-specific duration, whose
defaults are 60 s for "403", 60 s for "429" and 120 s for "captcha". -/
theorem C4_halt_window (st : DomainState) (now jitter : ℚ) (fuel : ℕ)
    (hR : 0 < st.bucket.refill_rate) (hhalt : now < st.halted_until) :
    (st.halted_until - now ≤ (acquire st now jitter fuel).1)
    ∧ (∀ (st2 : DomainState) (t : ℚ) (reason : String),
        (halt_domain st2 t none reason).halted_until
          = t + halt_duration_for reason)
    ∧ halt_duration_for "403" = 60
    ∧ halt_duration_for "429" = 60
    ∧ halt_duration_for "captcha" = 120 := by
  refine ⟨?_, fun st2 t reason => rfl, rfl, rfl, rfl⟩
  have htok := token_loop_sleep_nonneg fuel st.bucket (now + (st.halted_until - now)) hR
  simp only [acquire, if_pos hhalt]
  have hj : (0:ℚ) ≤ if now - st.last_request < jitter
      then jitter - (now - st.last_request) else 0 := by
    split
    · linarith [‹now - st.last_request < jitter›]
    · exact le_refl 0
  linarith [htok, hj]

/-- C4 witness: a domain halted until t = 130, acquired at t = 100, sleeps
at least 30 seconds, and the default halt durations are as claimed. -/
theorem C4_halt_window_witness :
    (130 - 100 : ℚ)
      ≤ (acquire { bucket := ⟨5, 1, 5, 100⟩, halted_until := 130 } 100 0 1).1
    ∧ halt_duration_for "403" = 60 := by
  have h := C4_halt_window { bucket := ⟨5, 1, 5, 100⟩, halted_until := 130 }
    100 0 1 (by norm_num) (by norm_num)
  exact ⟨h.1, h.2.2.1⟩

/-- C9: saving the same `(url, content, status)` twice in a row leaves the
same on-disk state (content files, metadata index and persisted
`metadata.json`) as the single (second) call — the record's `stored_at` is
taken at call time, so the surviving state is that of the last call. -/
theorem C9_save_idempotent (s : RawStorage) (u c ct : String) (sc : ℕ)
    (t1 t2 : ℚ) :
    (s.save u c t1 ct sc).save u c t2 ct sc = s.save u c t2 ct sc := by
  simp only [RawStorage.save]
  congr 1
  · funext k
    by_cases h : k = get_filepath u ct <;> simp [h]
  · funext k
    by_cases h : k = storage_url_hash u <;> simp [h]
  · funext k
    by_cases h : k = storage_url_hash u <;> simp [h]

/-- C8 counterexample: a static fetch through a proxy that ends in a
timeout (a transport error) leaves the proxy pool state unchanged — the
failure counter is not incremented, contrary to the claim that every
transport error including a timeout is reported as a failure. -/
theorem C8_timeout_not_reported :
    (http_fetch "https://h/x" HttpOutcome.timeout
        (some { url := "http://p:8080" }) 1).2
      = some { url := "http://p:8080" }
    ∧ ({ url := "http://p:8080" } : Proxy).failure_count = 0 := by
  exact ⟨rfl, rfl⟩

/-- C8 amended: the outcome is reported to the proxy pool as success (with
the response time, resetting the failure counter) on a 2xx status, and as a
failure (incrementing the counter) on a block status (403/429) or a
non-timeout transport error; a timeout returns a failure result without
reporting to the pool, and any other status is likewise not reported. -/
theorem C8_proxy_reporting (url body msg : String) (s : ℕ) (p : Proxy)
    (rt : ℚ) :
    (200 ≤ s → s < 300 →
        (http_fetch url (.ok s body) (some p) rt).2 = some (p.mark_success rt)
        ∧ (p.mark_success rt).failure_count = 0)
    ∧ (s = 403 ∨ s = 429 →
        (http_fetch url (.ok s body) (some p) rt).2 = some p.mark_failure
        ∧ p.mark_failure.failure_count = p.failure_count + 1)
    ∧ ((http_fetch url (.requestError msg) (some p) rt).2
        = some p.mark_failure)
    ∧ ((http_fetch url .timeout (some p) rt).2 = some p)
    ∧ (¬ (200 ≤ s ∧ s < 300) → ¬ (s = 403 ∨ s = 429) →
        (http_fetch url (.ok s body) (some p) rt).2 = some p) := by
  refine ⟨?_, ?_, rfl, rfl, ?_⟩
  · intro h1 h2
    refine ⟨?_, rfl⟩
    simp [http_fetch, FetchResult.success, h1, h2]
  · intro h
    refine ⟨?_, rfl⟩
    rcases h with rfl | rfl <;>
      simp [http_fetch, FetchResult.success, FetchResult.is_blocked]
  · intro h1 h2
    have h403 : s ≠ 403 := fun hc => h2 (Or.inl hc)
    have h429 : s ≠ 429 := fun hc => h2 (Or.inr hc)
    by_cases hle : 200 ≤ s
    · have hlt : ¬ s < 300 := fun hlt => h1 ⟨hle, hlt⟩
      simp [http_fetch, FetchResult.success, FetchResult.is_blocked,
        hle, hlt, h403, h429]
    · simp [http_fetch, FetchResult.success, FetchResult.is_blocked,
        hle, h403, h429]

/-- C8 witness: concrete instances of the amended reporting rules — a 200
through a fresh proxy resets the counter, a 429 increments it, a timeout
leaves the pool untouched. -/
theorem C8_proxy_reporting_witness :
    ((http_fetch "u" (.ok 200 "b") (some { url := "q" }) 1).2
        = some (({ url := "q" } : Proxy).mark_success 1))
    ∧ ((http_fetch "u" (.ok 429 "b") (some { url := "q" }) 1).2
        = some ({ url := "q" } : Proxy).mark_failure)
    ∧ ((http_fetch "u" (.ok 500 "b") (some { url := "q" }) 1).2
        = some { url := "q" }) := by
  refine ⟨?_, ?_, ?_⟩
  · exact ((C8_proxy_reporting "u" "b" "m" 200 { url := "q" } 1).1
      (by norm_num) (by norm_num)).1
  · exact ((C8_proxy_reporting "u" "b" "m" 429 { url := "q" } 1).2.1
      (Or.inr rfl)).1
  · exact (C8_proxy_reporting "u" "b" "m" 500 { url := "q" } 1).2.2.2.2
      (by omega) (by omega)

/-- C3: the escalation ladder of `_fetch_url` — static first; on static
success with `quick_check` positive the browser result is returned (and the
browser counter bumped); on a static 403/429 failure the domain is halted
for the status-specific duration and the browser result returned; in every
other case the static result itself is returned. -/
theorem C3_escalation (static browser : FetchResult)
    (qc : FetchResult → Bool) (st : DomainState) (now : ℚ)
    (stats : ScraperStats) :
    (static.success = true → qc static = true →
        fetch_url static browser qc st now stats
          = (browser,
             { stats with browser_fetches := stats.browser_fetches + 1 }, st))
    ∧ (static.success = true → qc static = false →
        fetch_url static browser qc st now stats
          = (static,
             { stats with http_fetches := stats.http_fetches + 1 }, st))
    ∧ (static.success = false →
        (static.status_code = 403 ∨ static.status_code = 429) →
        fetch_url static browser qc st now stats
          = (browser,
             { stats with browser_fetches := stats.browser_fetches + 1 },
             halt_domain st now none (toString static.status_code))
        ∧ (halt_domain st now none
            (toString static.status_code)).halted_until
            = now + halt_duration_for (toString static.status_code)
        ∧ halt_duration_for (toString static.status_code) = 60)
    ∧ (static.success = false →
        ¬ (static.status_code = 403 ∨ static.status_code = 429) →
        fetch_url static browser qc st now stats
          = (static,
             { stats with http_fetches := stats.http_fetches + 1 }, st)) := by
  refine ⟨?_, ?_, ?_, ?_⟩
  · intro hs hq
    simp [fetch_url, hs, hq]
  · intro hs hq
    simp [fetch_url, hs, hq]
  · intro hs hb
    refine ⟨by simp [fetch_url, hs, hb], rfl, ?_⟩
    rcases hb with h | h <;> rw [h] <;> rfl
  · intro hs hb
    simp [fetch_url, hs, hb]

/-- C3 witness: a concrete 403 static failure escalates to the browser
result and halts the domain for 60 seconds. -/
theorem C3_escalation_witness :
    fetch_url { url := "u", status_code := 403 }
        { url := "u", status_code := 200, is_browser := true }
        (fun _ => false) { bucket := ⟨5, 1, 5, 0⟩ } 10 {}
      = ({ url := "u", status_code := 200, is_browser := true },
         { browser_fetches := 1 },
         halt_domain { bucket := ⟨5, 1, 5, 0⟩ } 10 none "403") := by
  exact ((C3_escalation { url := "u", status_code := 403 }
    { url := "u", status_code := 200, is_browser := true }
    (fun _ => false) { bucket := ⟨5, 1, 5, 0⟩ } 10 {}).2.2.1
    (by simp [FetchResult.success]) (Or.inl rfl)).1

/-- With the browser available, the exception-aware dispatcher agrees
with the total dispatcher of the escalation ladder. -/
theorem fetch_url_e_agrees (static b : FetchResult)
    (qc : FetchResult → Bool) (st : DomainState) (now : ℚ)
    (stats : ScraperStats) (errmsg : String) :
    fetch_url_e static (some b) qc st now stats errmsg
      = (.ok (fetch_url static b qc st now stats).1,
         (fetch_url static b qc st now stats).2.1,
         (fetch_url static b qc st now stats).2.2) := by
  simp only [fetch_url_e, fetch_url]
  split_ifs <;> rfl

/-- A cache hit bumps `urls_processed` and leaves both fetch counters
unchanged. -/
theorem worker_step_cached (qc : FetchResult → Bool)
    (acc : ScraperStats × DomainState) :
    (worker_step qc acc .cachedHit).1.urls_processed
        = acc.1.urls_processed + 1
    ∧ (worker_step qc acc .cachedHit).1.http_fetches = acc.1.http_fetches
    ∧ (worker_step qc acc .cachedHit).1.browser_fetches
        = acc.1.browser_fetches := by
  simp [worker_step]

/-- A URL whose pipeline raised before the dispatch bumps
`urls_processed` and leaves both fetch counters unchanged. -/
theorem worker_step_prefetch (qc : FetchResult → Bool)
    (acc : ScraperStats × DomainState) (msg : String) :
    (worker_step qc acc (.preFetchError msg)).1.urls_processed
        = acc.1.urls_processed + 1
    ∧ (worker_step qc acc (.preFetchError msg)).1.http_fetches
        = acc.1.http_fetches
    ∧ (worker_step qc acc (.preFetchError msg)).1.browser_fetches
        = acc.1.browser_fetches := by
  simp [worker_step]

/-- A dispatched URL bumps `urls_processed`; it bumps exactly one fetch
counter unless the escalation aborted on a raising browser init, in which
case it bumps neither. -/
theorem worker_step_dispatched (qc : FetchResult → Bool)
    (acc : ScraperStats × DomainState) (static : FetchResult)
    (browser? : Option FetchResult) (now : ℚ) (errmsg : String)
    (saveE reportE : Except String Unit) :
    (worker_step qc acc
        (.dispatch static browser? now errmsg saveE reportE)).1.urls_processed
      = acc.1.urls_processed + 1
    ∧ (worker_step qc acc
          (.dispatch static browser? now errmsg saveE reportE)).1.http_fetches
        + (worker_step qc acc
            (.dispatch static browser? now errmsg saveE
              reportE)).1.browser_fetches
      = acc.1.http_fetches + acc.1.browser_fetches
        + (if dispatchAborted qc static browser? then 0 else 1)
    ∧ ((worker_step qc acc
          (.dispatch static browser? now errmsg saveE reportE)).1.http_fetches
          = acc.1.http_fetches
        ∨ (worker_step qc acc
            (.dispatch static browser? now errmsg saveE
              reportE)).1.browser_fetches
          = acc.1.browser_fetches) := by
  cases hsv : static.success with
  | true =>
    cases hqv : qc static with
    | true =>
      cases browser? with
      | none =>
        simp [worker_step, fetch_url_e, dispatchAborted, hsv, hqv]
      | some b =>
        cases hbs : b.success <;>
          cases saveE <;> cases reportE <;>
            simp [worker_step, fetch_url_e, dispatchAborted, hsv, hqv, hbs] <;>
              omega
    | false =>
      cases saveE <;> cases reportE <;>
        simp [worker_step, fetch_url_e, dispatchAborted, hsv, hqv] <;> omega
  | false =>
    by_cases hb : static.status_code = 403 ∨ static.status_code = 429
    · have hbeq : (static.status_code == 403 || static.status_code == 429)
          = true := by
        rcases hb with hb | hb <;> simp [hb]
      cases browser? with
      | none =>
        simp [worker_step, fetch_url_e, dispatchAborted, hsv, hb, hbeq]
      | some b =>
        cases hbs : b.success <;>
          cases saveE <;> cases reportE <;>
            simp [worker_step, fetch_url_e, dispatchAborted, hsv, hb, hbeq,
              hbs] <;> omega
    · have h403 : static.status_code ≠ 403 := fun hc => hb (Or.inl hc)
      have h429 : static.status_code ≠ 429 := fun hc => hb (Or.inr hc)
      cases browser? with
      | none =>
        simp [worker_step, fetch_url_e, dispatchAborted, hsv, hb, h403,
          h429] <;> omega
      | some b =>
        simp [worker_step, fetch_url_e, dispatchAborted, hsv, hb, h403,
          h429] <;> omega

/-- `cached_hits` of a run starting with a cache hit. -/
theorem cachedHits_cons_cached (es : List UrlOutcome) :
    cachedHits (.cachedHit :: es) = cachedHits es + 1 := by
  simp [cachedHits, List.countP_cons]

/-- `cached_hits` of a run starting with a pre-dispatch raise. -/
theorem cachedHits_cons_prefetch (msg : String) (es : List UrlOutcome) :
    cachedHits (.preFetchError msg :: es) = cachedHits es := by
  simp [cachedHits, List.countP_cons]

/-- `cached_hits` of a run starting with a dispatch. -/
theorem cachedHits_cons_dispatched (static : FetchResult)
    (browser? : Option FetchResult) (now : ℚ) (errmsg : String)
    (saveE reportE : Except String Unit) (es : List UrlOutcome) :
    cachedHits (.dispatch static browser? now errmsg saveE reportE :: es)
      = cachedHits es := by
  simp [cachedHits, List.countP_cons]

/-- Aborted count of a run starting with a cache hit. -/
theorem abortedHits_cons_cached (qc : FetchResult → Bool)
    (es : List UrlOutcome) :
    abortedHits qc (.cachedHit :: es) = abortedHits qc es := by
  simp [abortedHits, List.countP_cons]

/-- Aborted count of a run starting with a pre-dispatch raise. -/
theorem abortedHits_cons_prefetch (qc : FetchResult → Bool) (msg : String)
    (es : List UrlOutcome) :
    abortedHits qc (.preFetchError msg :: es) = abortedHits qc es + 1 := by
  simp [abortedHits, List.countP_cons]

/-- Aborted count of a run starting with a dispatch. -/
theorem abortedHits_cons_dispatched (qc : FetchResult → Bool)
    (static : FetchResult) (browser? : Option FetchResult) (now : ℚ)
    (errmsg : String) (saveE reportE : Except String Unit)
    (es : List UrlOutcome) :
    abortedHits qc (.dispatch static browser? now errmsg saveE reportE :: es)
      = abortedHits qc es
        + (if dispatchAborted qc static browser? then 1 else 0) := by
  simp [abortedHits, List.countP_cons]

/-- Fold form of the counter identity, generalized over the accumulator. -/
theorem run_worker_counters (qc : FetchResult → Bool) :
    ∀ (events : List UrlOutcome) (acc : ScraperStats × DomainState),
    (events.foldl (worker_step qc) acc).1.http_fetches
      + (events.foldl (worker_step qc) acc).1.browser_fetches
      + cachedHits events + abortedHits qc events + acc.1.urls_processed
    = (events.foldl (worker_step qc) acc).1.urls_processed
      + acc.1.http_fetches + acc.1.browser_fetches := by
  intro events
  induction events with
  | nil =>
    intro acc
    simp only [List.foldl_nil, cachedHits, abortedHits, List.countP_nil]
    omega
  | cons e es ih =>
    intro acc
    have hih := ih (worker_step qc acc e)
    simp only [List.foldl_cons] at hih ⊢
    cases e with
    | cachedHit =>
      obtain ⟨hp, hh, hb⟩ := worker_step_cached qc acc
      rw [cachedHits_cons_cached, abortedHits_cons_cached]
      omega
    | preFetchError msg =>
      obtain ⟨hp, hh, hb⟩ := worker_step_prefetch qc acc msg
      rw [cachedHits_cons_prefetch, abortedHits_cons_prefetch]
      omega
    | dispatch s b? n m sE rE =>
      obtain ⟨hp, hs, _⟩ := worker_step_dispatched qc acc s b? n m sE rE
      rw [cachedHits_cons_dispatched, abortedHits_cons_dispatched]
      by_cases hda : dispatchAborted qc s b? = true
      · rw [if_pos hda] at hs
        rw [if_pos hda]
        omega
      · rw [if_neg hda] at hs
        rw [if_neg hda]
        omega

/-- C7 counterexample: a URL whose static fetch fails with 403 escalates,
but `_init_browser` raises (dynamic driver unavailable) before
`browser_fetches` is bumped — the URL is processed, is not a cache hit,
and increments neither counter, so
`http_fetches + browser_fetches ≠ urls_processed - cached_hits`. -/
theorem C7_abort_breaks_identity :
    (let events : List UrlOutcome :=
      [UrlOutcome.dispatch
        { url := "https://h/x", status_code := 403 } none 0
        "playwright and playwright-stealth are required. Install with: pip install playwright playwright-stealth && playwright install chromium"
        (.ok ()) (.ok ())]
     let r := run_worker (fun _ => false) { bucket := ⟨5, 1, 5, 0⟩ } events
     r.1.urls_processed = 1 ∧ cachedHits events = 0
       ∧ r.1.http_fetches = 0 ∧ r.1.browser_fetches = 0
       ∧ r.1.http_fetches + r.1.browser_fetches
           ≠ r.1.urls_processed - cachedHits events) := by
  decide

/-- C7 amended: each processed URL bumps at most one of `http_fetches` /
`browser_fetches` — exactly one for a dispatched URL whose pipeline
reached a fetch counter, and neither for a cache hit or for a URL whose
processing raised before either counter was incremented (a pre-dispatch
exception, or an escalation whose browser init raised) — and over any run
from fresh stats the identity
`http_fetches + browser_fetches = urls_processed − cached_hits − aborted`
holds, where `aborted` counts the URLs whose processing raised before a
fetch counter was reached. -/
theorem C7_counter_identity (qc : FetchResult → Bool) (st0 : DomainState)
    (events : List UrlOutcome) :
    ((run_worker qc st0 events).1.http_fetches
        + (run_worker qc st0 events).1.browser_fetches
        + cachedHits events + abortedHits qc events
      = (run_worker qc st0 events).1.urls_processed)
    ∧ ((run_worker qc st0 events).1.http_fetches
        + (run_worker qc st0 events).1.browser_fetches
      = (run_worker qc st0 events).1.urls_processed
          - cachedHits events - abortedHits qc events)
    ∧ (∀ (acc : ScraperStats × DomainState) (e : UrlOutcome),
        (worker_step qc acc e).1.urls_processed = acc.1.urls_processed + 1
        ∧ (worker_step qc acc e).1.http_fetches
            + (worker_step qc acc e).1.browser_fetches
          = acc.1.http_fetches + acc.1.browser_fetches
            + (match e with
               | .cachedHit => 0
               | .preFetchError _ => 0
               | .dispatch s b? _ _ _ _ =>
                 if dispatchAborted qc s b? then 0 else 1)
        ∧ ((worker_step qc acc e).1.http_fetches = acc.1.http_fetches
            ∨ (worker_step qc acc e).1.browser_fetches
              = acc.1.browser_fetches)) := by
  have h := run_worker_counters qc events ({}, st0)
  simp only [run_worker]
  refine ⟨?_, ?_, fun acc e => ?_⟩
  · simpa using h
  · simp only at h
    omega
  · cases e with
    | cachedHit =>
      obtain ⟨hp, hh, hb⟩ := worker_step_cached qc acc
      exact ⟨hp, by simp [hh, hb], Or.inl hh⟩
    | preFetchError msg =>
      obtain ⟨hp, hh, hb⟩ := worker_step_prefetch qc acc msg
      exact ⟨hp, by simp [hh, hb], Or.inl hh⟩
    | dispatch s b? n m sE rE =>
      obtain ⟨hp, hs, hone⟩ := worker_step_dispatched qc acc s b? n m sE rE
      exact ⟨hp, by simpa using hs, hone⟩

/-- C10: the per-URL pipeline `_process_url` converts every component
exception into a returned `ScrapeResult` — any exception from the limiter,
store, fetchers or success-reporting yields a failure result carrying the
message, a parser exception yields a success result with empty data, and a
failed (but non-raising) fetch yields a failure result with the fetch's
status and error. -/
theorem C10_pipeline_total (url : String) (env : ProcEnv) :
    (∀ e, env.acquireE = .error e → process_url url env = errResult url e)
    ∧ (∀ e, env.acquireE = .ok () → env.existsE = .error e →
        process_url url env = errResult url e)
    ∧ (∀ e, env.acquireE = .ok () → env.existsE = .ok true →
        env.loadE = .error e → process_url url env = errResult url e)
    ∧ (∀ c pe, env.acquireE = .ok () → env.existsE = .ok true →
        env.loadE = .ok (some c) → env.parse = some (.error pe) →
        process_url url env
          = { url := url, success := true, content := c, data := [] })
    ∧ (∀ e, env.acquireE = .ok () → env.existsE = .ok false →
        env.fetchE = .error e → process_url url env = errResult url e)
    ∧ (∀ r, env.acquireE = .ok () → env.existsE = .ok false →
        env.fetchE = .ok r → r.success = false →
        process_url url env
          = { url := url, success := false, status_code := r.status_code
              , error := r.error, response_time := r.response_time })
    ∧ (∀ r e, env.acquireE = .ok () → env.existsE = .ok false →
        env.fetchE = .ok r → r.success = true → env.saveE = .error e →
        process_url url env = errResult url e)
    ∧ (∀ r pe, env.acquireE = .ok () → env.existsE = .ok false →
        env.fetchE = .ok r → r.success = true → env.saveE = .ok () →
        env.parse = some (.error pe) → env.reportE = .ok () →
        process_url url env
          = { url := url, success := true, status_code := r.status_code
              , content := r.content, data := []
              , response_time := r.response_time
              , used_browser := r.is_browser })
    ∧ (∀ r e, env.acquireE = .ok () → env.existsE = .ok false →
        env.fetchE = .ok r → r.success = true → env.saveE = .ok () →
        env.reportE = .error e → process_url url env = errResult url e) := by
  refine ⟨?_, ?_, ?_, ?_, ?_, ?_, ?_, ?_, ?_⟩
  · intro e h1
    simp [process_url, h1]
  · intro e h1 h2
    simp [process_url, h1, h2]
  · intro e h1 h2 h3
    simp [process_url, h1, h2, h3]
  · intro c pe h1 h2 h3 h4
    simp [process_url, h1, h2, h3, h4]
  · intro e h1 h2 h3
    simp [process_url, h1, h2, h3]
  · intro r h1 h2 h3 h4
    simp [process_url, h1, h2, h3, h4]
  · intro r e h1 h2 h3 h4 h5
    simp [process_url, h1, h2, h3, h4, h5]
  · intro r pe h1 h2 h3 h4 h5 h6 h7
    simp [process_url, h1, h2, h3, h4, h5, h6, h7]
  · intro r e h1 h2 h3 h4 h5 h6
    simp [process_url, h1, h2, h3, h4, h5, h6]

/-- C10 witness: a limiter exception and a parser exception on concrete
environments produce the claimed results. -/
theorem C10_pipeline_total_witness :
    process_url "u"
        { acquireE := .error "limiter down", existsE := .ok false
          , loadE := .ok none, fetchE := .ok { url := "u", status_code := 200 }
          , saveE := .ok (), reportE := .ok (), parse := none }
      = errResult "u" "limiter down"
    ∧ process_url "u"
        { acquireE := .ok (), existsE := .ok false, loadE := .ok none
          , fetchE := .ok { url := "u", status_code := 200, content := "c" }
          , saveE := .ok (), reportE := .ok ()
          , parse := some (.error "parser boom") }
      = { url := "u", success := true, status_code := 200
          , content := "c", data := [], response_time := 0
          , used_browser := false } := by
  constructor
  · exact (C10_pipeline_total "u"
      { acquireE := .error "limiter down", existsE := .ok false
        , loadE := .ok none, fetchE := .ok { url := "u", status_code := 200 }
        , saveE := .ok (), reportE := .ok (), parse := none }).1
      "limiter down" rfl
  · exact (C10_pipeline_total "u"
      { acquireE := .ok (), existsE := .ok false, loadE := .ok none
        , fetchE := .ok { url := "u", status_code := 200, content := "c" }
        , saveE := .ok (), reportE := .ok ()
        , parse := some (.error "parser boom") }).2.2.2.2.2.2.2.1
      { url := "u", status_code := 200, content := "c" } "parser boom"
      rfl rfl rfl (by simp [FetchResult.success]) rfl rfl rfl

/-- C1 counterexample: a 403 on the robots.txt fetch does NOT yield a
deny-all entry — the source maps 403 (like 404) to an empty ruleset, so
`can_fetch` answers `true`, where the claim requires `false` for every
path. -/
theorem C1_403_allows :
    (robotsRulesetFor (.response 403 "")).can_fetch "*" "/x" = true := by
  rfl

/-- C1 amended: the ruleset stored on a cache miss is determined by the
response as follows — a 200 yields the parsed body; a 404 OR a 403 yields
allow-all (every path permitted); any other status, or a transport error,
yields a synthetic deny-all entry cached for the TTL, so `can_fetch` is
false for every path of that origin while the entry is cached. -/
theorem C1_robots_mapping :
    (∀ body, fetch_robots_txt (.response 200 body) = body)
    ∧ (∀ status body path, status = 404 ∨ status = 403 →
        (robotsRulesetFor (.response status body)).can_fetch "*" path = true)
    ∧ (∀ status body path, status ≠ 200 → ¬ (status = 404 ∨ status = 403) →
        pyStartsWith path "/" →
        (robotsRulesetFor (.response status body)).can_fetch "*" path = false)
    ∧ (∀ msg path, pyStartsWith path "/" →
        (robotsRulesetFor (.requestError msg)).can_fetch "*" path = false) := by
  have hdeny : ∀ (path : String), pyStartsWith path "/" →
      (RobotFileParser.parse
        (pySplit '\n' "User-agent: *\nDisallow: /")).can_fetch "*" path
        = false := by
    intro path hp
    have hpne : path ≠ "" := by
      intro h
      subst h
      exact absurd hp (by decide)
    have hparsed : RobotFileParser.parse (pySplit '\n' "User-agent: *\nDisallow: /")
        = { entries := []
            , default_entry := some
                { useragents := ["*"], rulelines := [⟨"/", false⟩] }
            , disallow_all := false, allow_all := false
            , last_checked := true } := by
      rfl
    rw [hparsed]
    simp only [RobotFileParser.can_fetch, RobotsEntry.allowance,
      RuleLine.applies_to, List.find?, if_neg hpne]
    simp [hp]
  refine ⟨fun body => rfl, ?_, ?_, ?_⟩
  · intro status body path h
    have hfetch : fetch_robots_txt (.response status body) = "" := by
      rcases h with rfl | rfl <;> rfl
    simp only [robotsRulesetFor, hfetch]
    rfl
  · intro status body path h200 h44 hp
    have hfetch : fetch_robots_txt (.response status body)
        = "User-agent: *\nDisallow: /" := by
      simp [fetch_robots_txt, h200, h44]
    simp only [robotsRulesetFor, hfetch]
    exact hdeny path hp
  · intro msg path hp
    exact hdeny path hp

/-- C1 amended witness: a 404 for host h1 allows `/x`; a transport error
for host h2 denies `/x`; a 500 denies `/x`. -/
theorem C1_robots_mapping_witness :
    (robotsRulesetFor (.response 404 "")).can_fetch "*" "/x" = true
    ∧ (robotsRulesetFor (.requestError "connect error")).can_fetch "*" "/x"
        = false
    ∧ (robotsRulesetFor (.response 500 "")).can_fetch "*" "/x" = false := by
  refine ⟨?_, ?_, ?_⟩
  · exact C1_robots_mapping.2.1 404 "" "/x" (Or.inl rfl)
  · exact C1_robots_mapping.2.2.2 "connect error" "/x" (by decide)
  · exact C1_robots_mapping.2.2.1 500 "" "/x" (by decide) (by decide) (by decide)

/-! ### Verification of the `heapq` embedding -/

/-- Reading a written position. -/
theorem nth_set_self (l : List QueueItem) (i : ℕ) (x : QueueItem)
    (h : i < l.length) : nth (l.set i x) i = x := by
  simp [nth, List.getD_eq_getElem?_getD, List.getElem?_set_eq_of_lt _ h]

/-- Reading an untouched position. -/
theorem nth_set_other (l : List QueueItem) (i j : ℕ) (x : QueueItem)
    (h : i ≠ j) : nth (l.set i x) j = nth l j := by
  simp [nth, List.getD_eq_getElem?_getD, List.getElem?_set_ne h]

/-- Reading below the appended element. -/
theorem nth_append_lt (l : List QueueItem) (x : QueueItem) (j : ℕ)
    (h : j < l.length) : nth (l ++ [x]) j = nth l j := by
  simp [nth, List.getD_eq_getElem?_getD, List.getElem?_append, h]

/-- Reading the appended element. -/
theorem nth_append_self (l : List QueueItem) (x : QueueItem) :
    nth (l ++ [x]) l.length = x := by
  simp [nth, List.getD_eq_getElem?_getD, List.getElem?_append]

/-- Reading `dropLast` below its length. -/
theorem nth_dropLast (l : List QueueItem) (j : ℕ) (h : j < l.length - 1) :
    nth l.dropLast j = nth l j := by
  simp [nth, List.getD_eq_getElem?_getD, List.dropLast_eq_take,
    List.getElem?_take_of_lt h]

/-- In a heap the root is minimal. -/
theorem heap_root_min (l : List QueueItem) (h : HeapInv l) :
    ∀ i, i < l.length → (nth l 0).priority ≤ (nth l i).priority := by
  intro i
  induction i using Nat.strong_induction_on with
  | _ i ih =>
    intro hi
    rcases Nat.eq_zero_or_pos i with rfl | hpos
    · exact le_refl _
    · have hedge : i = 2 * ((i - 1) / 2) + 1 ∨ i = 2 * ((i - 1) / 2) + 2 := by
        omega
      have hp : (i - 1) / 2 < i := by omega
      exact le_trans (ih _ hp (lt_trans hp hi)) (h _ i hedge hi)

/-- The bubble-up loop is insensitive to its fuel once the fuel covers the
position. -/
theorem siftdownGo_congr : ∀ (f1 f2 pos : ℕ) (l : List QueueItem)
    (s : ℕ) (x : QueueItem), pos ≤ f1 → pos ≤ f2 →
    siftdownGo f1 l s pos x = siftdownGo f2 l s pos x := by
  intro f1
  induction f1 with
  | zero =>
    intro f2 pos l s x h1 h2
    have hpos : pos = 0 := by omega
    subst hpos
    cases f2 with
    | zero => rfl
    | succ b => simp [siftdownGo]
  | succ a ih =>
    intro f2 pos l s x h1 h2
    cases f2 with
    | zero =>
      have hpos : pos = 0 := by omega
      subst hpos
      simp [siftdownGo]
    | succ b =>
      simp only [siftdownGo]
      by_cases hs : s < pos
      · rw [if_pos hs, if_pos hs]
        by_cases hq : qlt x (nth l ((pos - 1) / 2))
        · rw [if_pos hq, if_pos hq]
          exact ih b _ _ _ _ (by omega) (by omega)
        · rw [if_neg hq, if_neg hq]
      · rw [if_neg hs, if_neg hs]

/-- Unfolding of `siftdownAux` away from the start position. -/
theorem siftdownAux_pos (l : List QueueItem) (pos : ℕ) (x : QueueItem)
    (h : 0 < pos) :
    siftdownAux l 0 pos x
      = (if qlt x (nth l ((pos - 1) / 2))
         then siftdownAux (l.set pos (nth l ((pos - 1) / 2))) 0 ((pos - 1) / 2) x
         else l.set pos x) := by
  obtain ⟨k, rfl⟩ : ∃ k, pos = k + 1 := ⟨pos - 1, by omega⟩
  show siftdownGo (k + 1) l 0 (k + 1) x = _
  simp only [siftdownGo, if_pos (by omega : 0 < k + 1)]
  by_cases hq : qlt x (nth l ((k + 1 - 1) / 2))
  · rw [if_pos hq, if_pos hq]
    exact siftdownGo_congr k _ _ _ _ _ (by omega) (by omega)
  · rw [if_neg hq, if_neg hq]

/-- Unfolding of `siftdownAux` at the start position. -/
theorem siftdownAux_zero (l : List QueueItem) (x : QueueItem) :
    siftdownAux l 0 0 x = l.set 0 x := rfl

/-- `siftdownAux` preserves the length. -/
theorem siftdownAux_length : ∀ (pos : ℕ) (l : List QueueItem) (x : QueueItem),
    (siftdownAux l 0 pos x).length = l.length := by
  intro pos
  induction pos using Nat.strong_induction_on with
  | _ pos ih =>
    intro l x
    rcases Nat.eq_zero_or_pos pos with rfl | h0
    · rw [siftdownAux_zero, List.length_set]
    · rw [siftdownAux_pos _ _ _ h0]
      split
      · rw [ih _ (by omega), List.length_set]
      · rw [List.length_set]

/-- Correctness of the bubble-up pass: if every parent-child pair except
those into `pos` is ordered, and the children of `pos` (when present)
dominate the new item, the current occupant of `pos`, and the parent of
`pos`, then sifting the new item down from `pos` restores the heap
property. -/
theorem siftdownAux_spec : ∀ (pos : ℕ) (l : List QueueItem) (x : QueueItem),
    pos < l.length →
    (∀ i j, (j = 2 * i + 1 ∨ j = 2 * i + 2) → j < l.length → j ≠ pos →
        (nth l i).priority ≤ (nth l j).priority) →
    (∀ j, (j = 2 * pos + 1 ∨ j = 2 * pos + 2) → j < l.length →
        x.priority ≤ (nth l j).priority
        ∧ (nth l pos).priority ≤ (nth l j).priority
        ∧ (0 < pos →
            (nth l ((pos - 1) / 2)).priority ≤ (nth l j).priority)) →
    HeapInv (siftdownAux l 0 pos x) := by
  intro pos
  induction pos using Nat.strong_induction_on with
  | _ pos ih =>
    intro l x hpos hA hB
    rcases Nat.eq_zero_or_pos pos with rfl | h0
    · rw [siftdownAux_zero]
      intro i j hedge hj
      rw [List.length_set] at hj
      rw [nth_set_other _ _ _ _ (by omega : (0:ℕ) ≠ j)]
      rcases Nat.eq_zero_or_pos i with rfl | hi0
      · rw [nth_set_self _ _ _ hpos]
        exact (hB j hedge hj).1
      · rw [nth_set_other _ _ _ _ (by omega : (0:ℕ) ≠ i)]
        exact hA i j hedge hj (by omega)
    · rw [siftdownAux_pos _ _ _ h0]
      by_cases hq : qlt x (nth l ((pos - 1) / 2))
      · rw [if_pos hq]
        have hqlt : x.priority < (nth l ((pos - 1) / 2)).priority := by
          simpa [qlt] using hq
        have hpplt : (pos - 1) / 2 < pos := by omega
        apply ih _ hpplt
        · rw [List.length_set]
          omega
        · -- ordered except into the new position
          intro i j hedge hj hjne
          rw [List.length_set] at hj
          by_cases hjpos : j = pos
          · have hi : i = (pos - 1) / 2 := by omega
            rw [hjpos, hi, nth_set_self _ _ _ hpos,
              nth_set_other _ _ _ _ (by omega : pos ≠ (pos - 1) / 2)]
          · rw [nth_set_other _ _ _ _ (Ne.symm hjpos)]
            by_cases hipos : i = pos
            · rw [hipos, nth_set_self _ _ _ hpos]
              rw [hipos] at hedge
              exact (hB j hedge hj).2.2 h0
            · rw [nth_set_other _ _ _ _ (fun hc => hipos hc.symm)]
              exact hA i j hedge hj hjpos
        · -- children of the new position dominate
          intro j hedge hj
          rw [List.length_set] at hj
          have hgp : ∀ k, (k = 2 * ((pos - 1) / 2) + 1
                ∨ k = 2 * ((pos - 1) / 2) + 2) → k < l.length → k ≠ pos →
              (nth l ((pos - 1) / 2)).priority ≤ (nth l k).priority := by
            intro k hke hkl hkp
            exact hA _ k hke hkl hkp
          by_cases hjpos : j = pos
          · rw [hjpos, nth_set_self _ _ _ hpos]
            refine ⟨le_of_lt hqlt, ?_, ?_⟩
            · rw [nth_set_other _ _ _ _ (by omega : pos ≠ (pos - 1) / 2)]
            · intro hpp0
              rw [nth_set_other _ _ _ _
                (by omega : pos ≠ ((pos - 1) / 2 - 1) / 2)]
              have hppedge : (pos - 1) / 2 = 2 * (((pos - 1) / 2 - 1) / 2) + 1
                  ∨ (pos - 1) / 2 = 2 * (((pos - 1) / 2 - 1) / 2) + 2 := by
                omega
              exact hA _ _ hppedge (by omega) (by omega)
          · rw [nth_set_other _ _ _ _ (Ne.symm hjpos)]
            have hsib : (nth l ((pos - 1) / 2)).priority
                ≤ (nth l j).priority := hgp j hedge hj hjpos
            refine ⟨le_trans (le_of_lt hqlt) hsib, ?_, ?_⟩
            · rw [nth_set_other _ _ _ _ (by omega : pos ≠ (pos - 1) / 2)]
              exact hsib
            · intro hpp0
              rw [nth_set_other _ _ _ _
                (by omega : pos ≠ ((pos - 1) / 2 - 1) / 2)]
              have hppedge : (pos - 1) / 2 = 2 * (((pos - 1) / 2 - 1) / 2) + 1
                  ∨ (pos - 1) / 2 = 2 * (((pos - 1) / 2 - 1) / 2) + 2 := by
                omega
              exact le_trans (hA _ _ hppedge (by omega) (by omega)) hsib
      · rw [if_neg hq]
        have hge : (nth l ((pos - 1) / 2)).priority ≤ x.priority := by
          simpa [qlt] using hq
        intro i j hedge hj
        rw [List.length_set] at hj
        by_cases hjpos : j = pos
        · have hi : i = (pos - 1) / 2 := by omega
          rw [hjpos, hi, nth_set_self _ _ _ hpos,
            nth_set_other _ _ _ _ (by omega : pos ≠ (pos - 1) / 2)]
          exact hge
        · rw [nth_set_other _ _ _ _ (Ne.symm hjpos)]
          by_cases hipos : i = pos
          · rw [hipos, nth_set_self _ _ _ hpos]
            rw [hipos] at hedge
            exact (hB j hedge hj).1
          · rw [nth_set_other _ _ _ _ (fun hc => hipos hc.symm)]
            exact hA i j hedge hj hjpos

/-- The sift-to-leaf loop is insensitive to its fuel once the fuel covers
the remaining distance to `endpos`. -/
theorem siftupGo_congr : ∀ (f1 f2 pos : ℕ) (l : List QueueItem) (s : ℕ)
    (x : QueueItem) (endpos : ℕ), endpos - pos ≤ f1 → endpos - pos ≤ f2 →
    siftupGo f1 l s pos x endpos = siftupGo f2 l s pos x endpos := by
  intro f1
  induction f1 with
  | zero =>
    intro f2 pos l s x endpos h1 h2
    cases f2 with
    | zero => rfl
    | succ b =>
      simp only [siftupGo]
      rw [if_neg (by omega : ¬ 2 * pos + 1 < endpos)]
  | succ a ih =>
    intro f2 pos l s x endpos h1 h2
    cases f2 with
    | zero =>
      simp only [siftupGo]
      rw [if_neg (by omega : ¬ 2 * pos + 1 < endpos)]
    | succ b =>
      simp only [siftupGo]
      by_cases hch : 2 * pos + 1 < endpos
      · rw [if_pos hch, if_pos hch]
        by_cases hcond : 2 * pos + 1 + 1 < endpos
            ∧ ¬ qlt (nth l (2 * pos + 1)) (nth l (2 * pos + 1 + 1))
        · rw [if_pos hcond]
          exact ih b _ _ _ _ _ (by omega) (by omega)
        · rw [if_neg hcond]
          exact ih b _ _ _ _ _ (by omega) (by omega)
      · rw [if_neg hch, if_neg hch]

/-- Unfolding of `siftupLoop` at an inner node. -/
theorem siftupLoop_step (l : List QueueItem) (pos : ℕ) (x : QueueItem)
    (endpos : ℕ) (h : 2 * pos + 1 < endpos) :
    siftupLoop l 0 pos x endpos
      = siftupLoop
          (l.set pos (nth l
            (if 2 * pos + 1 + 1 < endpos
                ∧ ¬ qlt (nth l (2 * pos + 1)) (nth l (2 * pos + 1 + 1))
             then 2 * pos + 1 + 1 else 2 * pos + 1)))
          0
          (if 2 * pos + 1 + 1 < endpos
              ∧ ¬ qlt (nth l (2 * pos + 1)) (nth l (2 * pos + 1 + 1))
           then 2 * pos + 1 + 1 else 2 * pos + 1)
          x endpos := by
  obtain ⟨m, hm⟩ : ∃ m, endpos - pos = m + 1 := ⟨endpos - pos - 1, by omega⟩
  unfold siftupLoop
  rw [hm]
  simp only [siftupGo]
  rw [if_pos h]
  by_cases hcond : 2 * pos + 1 + 1 < endpos
      ∧ ¬ qlt (nth l (2 * pos + 1)) (nth l (2 * pos + 1 + 1))
  · rw [if_pos hcond]
    exact siftupGo_congr m _ _ _ _ _ _ (by omega) (by omega)
  · rw [if_neg hcond]
    exact siftupGo_congr m _ _ _ _ _ _ (by omega) (by omega)

/-- Unfolding of `siftupLoop` at a leaf. -/
theorem siftupLoop_leaf (l : List QueueItem) (pos : ℕ) (x : QueueItem)
    (endpos : ℕ) (h : ¬ 2 * pos + 1 < endpos) :
    siftupLoop l 0 pos x endpos = siftdownAux (l.set pos x) 0 pos x := by
  unfold siftupLoop
  cases hgap : endpos - pos with
  | zero => rfl
  | succ m =>
    simp only [siftupGo]
    rw [if_neg h]

/-- Correctness of the sift-to-leaf pass: if every parent-child pair except
those out of `pos` is ordered and the parent of `pos` is below both
children of `pos`, then running the loop (which bubbles the smaller child
up to the hole, places the new item in the freed leaf and sifts it down)
restores the heap property.  `endpos` is the (constant) list length. -/
theorem siftupLoop_spec (endpos : ℕ) : ∀ (gap pos : ℕ) (l : List QueueItem)
    (x : QueueItem),
    endpos - pos ≤ gap → endpos = l.length → pos < endpos →
    (∀ i j, (j = 2 * i + 1 ∨ j = 2 * i + 2) → j < endpos → i ≠ pos →
        (nth l i).priority ≤ (nth l j).priority) →
    (0 < pos → ∀ j, (j = 2 * pos + 1 ∨ j = 2 * pos + 2) → j < endpos →
        (nth l ((pos - 1) / 2)).priority ≤ (nth l j).priority) →
    HeapInv (siftupLoop l 0 pos x endpos) := by
  intro gap
  induction gap with
  | zero =>
    intro pos l x hgap hlen hpos hSA hSB
    exact absurd hgap (by omega)
  | succ g ih =>
    intro pos l x hgap hlen hpos hSA hSB
    by_cases hch : 2 * pos + 1 < endpos
    · rw [siftupLoop_step _ _ _ _ hch]
      by_cases hcond : 2 * pos + 1 + 1 < endpos
          ∧ ¬ qlt (nth l (2 * pos + 1)) (nth l (2 * pos + 1 + 1))
      · rw [if_pos hcond]
        -- right child chosen
        have hcedge : 2 * pos + 1 + 1 = 2 * pos + 2 := rfl
        have hclt : 2 * pos + 1 + 1 < endpos := hcond.1
        have hcmin : ∀ j, (j = 2 * pos + 1 ∨ j = 2 * pos + 2) → j < endpos →
            (nth l (2 * pos + 1 + 1)).priority ≤ (nth l j).priority := by
          intro j hje hj
          have hrl : (nth l (2 * pos + 1 + 1)).priority
              ≤ (nth l (2 * pos + 1)).priority := by
            have := hcond.2
            simpa [qlt] using this
          rcases hje with rfl | rfl
          · exact hrl
          · exact le_refl _
        apply ih (2 * pos + 1 + 1) (l.set pos (nth l (2 * pos + 1 + 1))) x
        · omega
        · rw [List.length_set]
          exact hlen
        · exact hclt
        · intro i j hedge hj hine
          by_cases hipos : i = pos
          · rw [hipos, nth_set_self _ _ _ (by omega)]
            rw [hipos] at hedge
            by_cases hjc : j = 2 * pos + 1 + 1
            · rw [hjc, nth_set_other _ _ _ _ (by omega)]
            · rw [nth_set_other _ _ _ _ (by omega : pos ≠ j)]
              exact hcmin j (by omega) hj
          · rw [nth_set_other _ _ _ _ (fun hc => hipos hc.symm)]
            by_cases hjpos : j = pos
            · have hi : i = (pos - 1) / 2 := by omega
              have h0 : 0 < pos := by omega
              rw [hjpos, nth_set_self _ _ _ (by omega), hi]
              exact hSB h0 _ (by omega) hclt
            · rw [nth_set_other _ _ _ _ (Ne.symm hjpos)]
              exact hSA i j hedge hj hipos
        · intro h0c j hedge hj
          have hpar : (2 * pos + 1 + 1 - 1) / 2 = pos := by omega
          rw [hpar, nth_set_self _ _ _ (by omega),
            nth_set_other _ _ _ _ (by omega : pos ≠ j)]
          exact hSA _ j (by omega) hj (by omega)
      · rw [if_neg hcond]
        -- left child chosen
        have hcmin : ∀ j, (j = 2 * pos + 1 ∨ j = 2 * pos + 2) → j < endpos →
            (nth l (2 * pos + 1)).priority ≤ (nth l j).priority := by
          intro j hje hj
          rcases hje with rfl | rfl
          · exact le_refl _
          · rcases not_and_or.mp hcond with hc | hc
            · exact absurd hj (by omega)
            · have := not_not.mp hc
              exact le_of_lt (by simpa [qlt] using this)
        apply ih (2 * pos + 1) (l.set pos (nth l (2 * pos + 1))) x
        · omega
        · rw [List.length_set]
          exact hlen
        · exact hch
        · intro i j hedge hj hine
          by_cases hipos : i = pos
          · rw [hipos, nth_set_self _ _ _ (by omega)]
            rw [hipos] at hedge
            by_cases hjc : j = 2 * pos + 1
            · rw [hjc, nth_set_other _ _ _ _ (by omega)]
            · rw [nth_set_other _ _ _ _ (by omega : pos ≠ j)]
              exact hcmin j (by omega) hj
          · rw [nth_set_other _ _ _ _ (fun hc => hipos hc.symm)]
            by_cases hjpos : j = pos
            · have hi : i = (pos - 1) / 2 := by omega
              have h0 : 0 < pos := by omega
              rw [hjpos, nth_set_self _ _ _ (by omega), hi]
              exact hSB h0 _ (by omega) hch
            · rw [nth_set_other _ _ _ _ (Ne.symm hjpos)]
              exact hSA i j hedge hj hipos
        · intro h0c j hedge hj
          have hpar : (2 * pos + 1 - 1) / 2 = pos := by omega
          rw [hpar, nth_set_self _ _ _ (by omega),
            nth_set_other _ _ _ _ (by omega : pos ≠ j)]
          exact hSA _ j (by omega) hj (by omega)
    · rw [siftupLoop_leaf _ _ _ _ hch]
      apply siftdownAux_spec pos
      · rw [List.length_set]
        omega
      · intro i j hedge hj hjne
        rw [List.length_set] at hj
        rw [nth_set_other _ _ _ _ (Ne.symm hjne)]
        by_cases hipos : i = pos
        · rw [hipos] at hedge
          exact absurd hj (by omega)
        · rw [nth_set_other _ _ _ _ (fun hc => hipos hc.symm)]
          exact hSA i j hedge (by omega) hipos
      · intro j hedge hj
        rw [List.length_set] at hj
        exact absurd hj (by omega)

/-- `heappush` preserves the heap property. -/
theorem heappush_heapInv (l : List QueueItem) (x : QueueItem)
    (h : HeapInv l) : HeapInv (heappush l x) := by
  have hx : nth (l ++ [x]) l.length = x := nth_append_self l x
  unfold heappush siftdown
  rw [hx]
  apply siftdownAux_spec l.length
  · simp
  · intro i j hedge hj hjne
    simp only [List.length_append, List.length_singleton] at hj
    have hjl : j < l.length := by omega
    have hil : i < l.length := by omega
    rw [nth_append_lt _ _ _ hjl, nth_append_lt _ _ _ hil]
    exact h i j hedge hjl
  · intro j hedge hj
    simp only [List.length_append, List.length_singleton] at hj
    exact absurd hj (by omega)

/-- `heappop` on a heap returns the root and leaves a heap. -/
theorem heappop_spec (l : List QueueItem) (h : HeapInv l) :
    ∀ item rest, heappop l = some (item, rest) →
      item = nth l 0 ∧ HeapInv rest := by
  intro item rest hpop
  match l, hpop with
  | x :: xs, hpop =>
    by_cases hempty : (x :: xs).dropLast.isEmpty
    · simp only [heappop, hempty, if_pos] at hpop
      have hxs : xs = [] := by
        cases xs with
        | nil => rfl
        | cons y ys => simp [List.dropLast] at hempty
      subst hxs
      simp only [List.getLast_singleton] at hpop
      obtain ⟨h1, h2⟩ := Prod.mk.injEq .. ▸ Option.some.injEq .. ▸ hpop
      refine ⟨?_, ?_⟩
      · cases hpop
        rfl
      · cases hpop
        intro i j hedge hj
        simp at hj
    · simp only [heappop, hempty, if_neg, Bool.not_eq_true] at hpop
      cases hpop
      have hlen2 : 2 ≤ (x :: xs).length := by
        cases xs with
        | nil => simp [List.dropLast] at hempty
        | cons y ys => simp
      have hdllen : (x :: xs).dropLast.length = (x :: xs).length - 1 := by
        simp
      constructor
      · rw [nth_dropLast _ _ (by omega)]
      · -- the sifted list is a heap
        unfold siftup
        have hslen :
            ((x :: xs).dropLast.set 0
              ((x :: xs).getLast (List.cons_ne_nil x xs))).length
              = (x :: xs).length - 1 := by
          rw [List.length_set, hdllen]
        apply siftupLoop_spec _ ((x :: xs).dropLast.set 0
            ((x :: xs).getLast (List.cons_ne_nil x xs))).length 0
        · omega
        · rfl
        · rw [hslen]
          omega
        · intro i j hedge hj hine
          rw [hslen] at hj
          have hj0 : j ≠ 0 := by omega
          rw [nth_set_other _ _ _ _ (fun hc => hine hc.symm),
            nth_set_other _ _ _ _ (Ne.symm hj0)]
          rw [nth_dropLast _ _ (by omega), nth_dropLast _ _ (by omega)]
          exact h i j hedge (by omega)
        · intro h0
          exact absurd h0 (by omega)

/-- `URLQueue.add` preserves the heap property of the backing list. -/
theorem URLQueue_add_heapInv (q : URLQueue) (url : String)
    (prio depth : ℕ) (pu : Option String) (h : HeapInv q.queue) :
    HeapInv ((q.add url prio depth pu).2).queue := by
  unfold URLQueue.add
  by_cases h1 : url_hash url ∈ q.seen
  · simpa [h1] using h
  · rw [if_neg h1]
    by_cases h2 : q.max_size ≤ q.queue.length
    · simpa [h2] using h
    · rw [if_neg h2]
      by_cases h3 : (q.filter_robots && !q.robots url) = true
      · simpa [h3] using h
      · simpa [h3] using heappush_heapInv _
          { priority := prio, url := url, depth := depth, parent_url := pu } h

/-- `URLQueue.get` preserves the heap property of the backing list. -/
theorem URLQueue_get_heapInv (q : URLQueue) (h : HeapInv q.queue) :
    HeapInv ((q.get).2).queue := by
  unfold URLQueue.get
  cases hpop : heappop q.queue with
  | none => exact h
  | some pr =>
    obtain ⟨item, rest⟩ := pr
    have := (heappop_spec q.queue h item rest hpop).2
    simpa using this

/-- Every state reachable by queue operations keeps the heap property. -/
theorem runQueue_heapInv : ∀ (ops : List QOp) (q : URLQueue),
    HeapInv q.queue → HeapInv (runQueue q ops).queue := by
  intro ops
  induction ops with
  | nil => intro q h; exact h
  | cons op ops ih =>
    intro q h
    cases op with
    | add url prio =>
      exact ih _ (URLQueue_add_heapInv q url prio 0 none h)
    | get => exact ih _ (URLQueue_get_heapInv q h)

/-- C5 counterexample: a rejection for being over capacity increments no
counter at all — the stats expose only duplicate and robots-filtered
counters, so "every rejected URL increments exactly one of the duplicate,
filtered, or over-capacity counters" fails on the over-capacity case. -/
theorem C5_overcapacity_uncounted :
    (let q0 : URLQueue := { max_size := 1, filter_robots := false }
     let r1 := q0.add "https://a.com" 2
     let r2 := r1.2.add "https://b.com" 2
     r1.1 = true ∧ r2.1 = false
       ∧ r2.2.duplicates = 0 ∧ r2.2.filtered = 0
       ∧ r2.2.get_stats = r1.2.get_stats) := by
  decide

/-- C5 amended: `add` accepts exactly when the dedup fingerprint of the
normalized URL (trailing slashes stripped, lowercased) is unseen, the
queue is below capacity, and (when filtering is enabled) robots permit;
a duplicate bumps the duplicates counter, a robots rejection bumps the
filtered counter, an over-capacity rejection leaves the state (and hence
every counter) unchanged, and an accepted URL is enqueued with its
fingerprint added to `seen`.  The three spellings of one logical URL share
one fingerprint. -/
theorem C5_add_spec (q : URLQueue) (url : String) (prio depth : ℕ)
    (pu : Option String) :
    ((q.add url prio depth pu).1 = true ↔
      url_hash url ∉ q.seen ∧ q.queue.length < q.max_size
        ∧ (q.filter_robots = true → q.robots url = true))
    ∧ (url_hash url ∈ q.seen →
        (q.add url prio depth pu).2
          = { q with duplicates := q.duplicates + 1 })
    ∧ (url_hash url ∉ q.seen → q.max_size ≤ q.queue.length →
        (q.add url prio depth pu).2 = q)
    ∧ (url_hash url ∉ q.seen → q.queue.length < q.max_size →
        q.filter_robots = true → q.robots url = false →
        (q.add url prio depth pu).2
          = { q with filtered := q.filtered + 1 })
    ∧ ((q.add url prio depth pu).1 = true →
        (q.add url prio depth pu).2
          = { q with
              queue := heappush q.queue
                { priority := prio, url := url, depth := depth
                  , parent_url := pu }
              seen := url_hash url :: q.seen
              added := q.added + 1 })
    ∧ (url_hash "https://e.com/a" = url_hash "https://e.com/a/"
        ∧ url_hash "https://e.com/a" = url_hash "https://E.com/a") := by
  refine ⟨?_, ?_, ?_, ?_, ?_, by decide⟩
  · constructor
    · intro hacc
      by_cases h1 : url_hash url ∈ q.seen
      · simp [URLQueue.add, h1] at hacc
      · by_cases h2 : q.max_size ≤ q.queue.length
        · simp [URLQueue.add, h1, h2] at hacc
        · by_cases h3 : (q.filter_robots && !q.robots url) = true
          · simp [URLQueue.add, h1, h2, h3] at hacc
          · refine ⟨h1, by omega, ?_⟩
            intro hf
            rcases Bool.eq_false_or_eq_true (q.robots url) with hr | hr
            · exact hr
            · exact absurd (by simp [hf, hr]) h3
    · rintro ⟨h1, h2, h3⟩
      have hro : (q.filter_robots && !q.robots url) = false := by
        rcases Bool.eq_false_or_eq_true q.filter_robots with hf | hf
        · simp [hf, h3 hf]
        · simp [hf]
      simp [URLQueue.add, h1, not_le.mpr h2, hro]
  · intro h1
    simp [URLQueue.add, h1]
  · intro h1 h2
    simp [URLQueue.add, h1, h2]
  · intro h1 h2 h3 h4
    simp [URLQueue.add, h1, not_le.mpr h2, h3, h4]
  · intro hacc
    by_cases h1 : url_hash url ∈ q.seen
    · simp [URLQueue.add, h1] at hacc
    · by_cases h2 : q.max_size ≤ q.queue.length
      · simp [URLQueue.add, h1, h2] at hacc
      · by_cases h3 : (q.filter_robots && !q.robots url) = true
        · simp [URLQueue.add, h1, h2, h3] at hacc
        · simp [URLQueue.add, h1, h2, h3]

/-- C5 amended witness: the dedup scenario — three spellings of one
logical URL produce queue size 1 and duplicates counter 2, and an
over-capacity rejection changes nothing. -/
theorem C5_add_spec_witness :
    ((({ filter_robots := false } : URLQueue).add "https://e.com/a" 2).1
        = true)
    ∧ (((URLQueue.mk [⟨2, "https://e.com/a", 0, none⟩]
          [url_hash "https://e.com/a"] 10000 false (fun _ => true)
          1 0 0 0).add "https://e.com/a/" 2).2
        = URLQueue.mk [⟨2, "https://e.com/a", 0, none⟩]
            [url_hash "https://e.com/a"] 10000 false (fun _ => true)
            1 0 0 1)
    ∧ ((({ max_size := 0, filter_robots := false } : URLQueue).add
          "https://x.com" 2).2 = { max_size := 0, filter_robots := false }) := by
  refine ⟨?_, ?_, ?_⟩
  · exact ((C5_add_spec { filter_robots := false } "https://e.com/a" 2 0
      none).1).mpr ⟨by decide, by decide, fun h => by simp at h⟩
  · exact (C5_add_spec (URLQueue.mk [⟨2, "https://e.com/a", 0, none⟩]
      [url_hash "https://e.com/a"] 10000 false (fun _ => true) 1 0 0 0)
      "https://e.com/a/" 2 0 none).2.1 (by decide)
  · exact (C5_add_spec { max_size := 0, filter_robots := false }
      "https://x.com" 2 0 none).2.2.1 (by decide) (by decide)

/-- C6 counterexample: four items of equal priority enqueued in the order
a, b, c, d are dequeued in the order a, c, b, d — removal order among equal
priorities does not equal insertion order. -/
theorem C6_ties_not_fifo :
    (let q0 : URLQueue := { filter_robots := false }
     let q4 := ((((q0.add "a" 2).2.add "b" 2).2.add "c" 2).2.add "d" 2).2
     let g1 := q4.get
     let g2 := g1.2.get
     let g3 := g2.2.get
     let g4 := g3.2.get
     g1.1.map QueueItem.url = some "a"
      ∧ g2.1.map QueueItem.url = some "c"
      ∧ g3.1.map QueueItem.url = some "b"
      ∧ g4.1.map QueueItem.url = some "d") := by
  decide

/-- C6 amended: dequeue order is by priority value only (lower value
first): in any state reachable by queue operations, a successful `get`
returns an item whose priority is least among all queued items.  Among
items of equal priority the order of removal is the heap order, which need
not equal insertion order. -/
theorem C6_priority_order (ms : ℕ) (fr : Bool) (rb : String → Bool)
    (ops : List QOp) (item : QueueItem) (st' : URLQueue)
    (h : (runQueue { max_size := ms, filter_robots := fr, robots := rb }
        ops).get = (some item, st')) :
    ∀ x ∈ (runQueue { max_size := ms, filter_robots := fr, robots := rb }
        ops).queue, item.priority ≤ x.priority := by
  intro x hx
  have hinv : HeapInv (runQueue
      { max_size := ms, filter_robots := fr, robots := rb } ops).queue := by
    apply runQueue_heapInv
    intro i j hedge hj
    simp at hj
  set q := runQueue { max_size := ms, filter_robots := fr, robots := rb } ops
    with hq
  have hpop : ∃ rest, heappop q.queue = some (item, rest) := by
    unfold URLQueue.get at h
    cases hp : heappop q.queue with
    | none =>
      rw [hp] at h
      simp at h
    | some pr =>
      obtain ⟨it, rest⟩ := pr
      rw [hp] at h
      simp at h
      exact ⟨rest, by rw [← h.1]⟩
  obtain ⟨rest, hpop⟩ := hpop
  have hroot : item = nth q.queue 0 :=
    (heappop_spec q.queue hinv item rest hpop).1
  obtain ⟨ix, hget⟩ := List.mem_iff_get.mp hx
  have hmin := heap_root_min q.queue hinv ix.1 ix.2
  rw [hroot]
  have : nth q.queue ix.1 = x := by
    rw [nth, List.getD_eq_getElem?_getD, List.getElem?_eq_getElem ix.2]
    simpa using hget
  rw [← this]
  exact hmin

/-- C6 amended witness: with items of priorities 2 then 1 enqueued, `get`
returns the priority-1 item, which is no larger than the priority of the
still-queued priority-2 item. -/
theorem C6_priority_order_witness :
    ((1:ℕ) ≤ (QueueItem.mk 2 "a" 0 none).priority) := by
  have h := C6_priority_order 10000 false (fun _ => true)
    [QOp.add "a" 2, QOp.add "b" 1]
    ⟨1, "b", 0, none⟩
    ((runQueue (URLQueue.mk [] [] 10000 false (fun _ => true) 0 0 0 0)
      [QOp.add "a" 2, QOp.add "b" 1]).get).2
    (Prod.ext_iff.mpr ⟨by decide, rfl⟩)
  exact h ⟨2, "a", 0, none⟩ (by decide)

end ScrapeU
